import Mathlib

/-!
Verification development for the claude-code-viewer log-parsing and
derived-metrics pipeline. The TypeScript sources are shallowly embedded:
pure functions become Lean functions over explicit data; the JSON line
decoder is abstracted as `Option RawLine` (a `none` models a line that
fails `JSON.parse` and is skipped); the filesystem is abstracted by
passing file contents (`Option (List LogLine)`, `none` models a missing
or unreadable file) or a list of session files explicitly; JavaScript
numbers are modelled as exact rationals; JavaScript `Date` instants are
modelled as integer milliseconds on a single timeline (the runtime local
timezone is taken to be the model timeline, offset zero).
-/

namespace CCViewer

/-! ## Basic string machinery (models of JS string primitives) -/

/-- Does `pat` occur at the start of a character list (model of
`String.prototype.startsWith` and of anchored regex matching). -/
def startsWithList : List Char → List Char → Bool
  | [], _ => true
  | _ :: _, [] => false
  | p :: ps, c :: cs => p == c && startsWithList ps cs

/-- Does `pat` occur anywhere inside `s` (model of
`String.prototype.includes`). -/
def hasSub (pat s : List Char) : Bool := s.tails.any (startsWithList pat)

/-- Index of the first occurrence of `pat` in `s` (model of
`String.prototype.indexOf` restricted to a found-or-not result). -/
def findIdx (pat : List Char) : List Char → Option Nat
  | [] => if pat.isEmpty then some 0 else none
  | c :: rest =>
    if startsWithList pat (c :: rest) then some 0 else (findIdx pat rest).map (· + 1)

/-- Character class `[A-Za-z0-9_-]` of the identifier-validation regex in
src/app/api/export/route.ts. -/
def isWordChar (c : Char) : Bool := c.isAlpha || c.isDigit || c == '_' || c == '-'

/-! ## Session Locator validation (src/app/api/export/route.ts, isValidPathSegment) -/

/-- Embedding of `isValidPathSegment` from src/app/api/export/route.ts:
rejects empty strings, strings longer than 256 characters, strings
containing "..", "/", a backslash or a NUL byte, and then requires the
whole string to match `^[a-zA-Z0-9_-]+$`. -/
def isValidPathSegment (s : String) : Bool :=
  if s.length = 0 ∨ s.length > 256 then false
  else if hasSub ['.', '.'] s.data || hasSub ['/'] s.data || hasSub ['\\'] s.data then false
  else if hasSub ['\x00'] s.data then false
  else !s.data.isEmpty && s.data.all isWordChar

/-! ## Token cost (src/lib/token-utils.ts) -/

/-- The four per-token rate fields of the `TOKEN_PRICES` table. -/
structure TokenPrices where
  input : ℚ
  output : ℚ
  cacheWrite : ℚ
  cacheRead : ℚ
deriving DecidableEq

/-- Embedding of the named constant `TOKEN_PRICES` from
src/lib/token-utils.ts (per-token rates; JS numbers modelled as exact
rationals). -/
def TOKEN_PRICES : TokenPrices :=
  { input := 3 / 1000000
    output := 15 / 1000000
    cacheWrite := 3.75 / 1000000
    cacheRead := 0.3 / 1000000 }

/-- The `TokenUsage` record (src/lib/types.ts); fields are JS numbers,
modelled as rationals. -/
structure TokenUsage where
  inputTokens : ℚ
  outputTokens : ℚ
  cacheCreationInputTokens : ℚ
  cacheReadInputTokens : ℚ
deriving DecidableEq

/-- Embedding of `calculateTokenCost` from src/lib/token-utils.ts. -/
def calculateTokenCost (usage : TokenUsage) : ℚ :=
  usage.inputTokens * TOKEN_PRICES.input + usage.outputTokens * TOKEN_PRICES.output +
    usage.cacheCreationInputTokens * TOKEN_PRICES.cacheWrite +
    usage.cacheReadInputTokens * TOKEN_PRICES.cacheRead

/-- Pointwise sum of two usage tuples (the summability structure the spec
assigns to TokenUsage). -/
def TokenUsage.add (u v : TokenUsage) : TokenUsage :=
  { inputTokens := u.inputTokens + v.inputTokens
    outputTokens := u.outputTokens + v.outputTokens
    cacheCreationInputTokens := u.cacheCreationInputTokens + v.cacheCreationInputTokens
    cacheReadInputTokens := u.cacheReadInputTokens + v.cacheReadInputTokens }

/-- Pointwise scaling of a usage tuple. -/
def TokenUsage.smul (k : ℚ) (u : TokenUsage) : TokenUsage :=
  { inputTokens := k * u.inputTokens
    outputTokens := k * u.outputTokens
    cacheCreationInputTokens := k * u.cacheCreationInputTokens
    cacheReadInputTokens := k * u.cacheReadInputTokens }

/-- The all-zero usage tuple. -/
def TokenUsage.zero : TokenUsage :=
  { inputTokens := 0, outputTokens := 0, cacheCreationInputTokens := 0, cacheReadInputTokens := 0 }

/-! ## JSONL data model (src/lib/types.ts and the raw-line interfaces of
src/lib/parser.ts). A parsed line is projected onto the fields the core
reads; a physical line that fails `JSON.parse` is modelled as `none`. -/

/-- The fields of a `tool_use` input object that the core reads
(`file_path`, `command`, `subagent_type`). A field that is absent or not
a string is modelled as `none`. -/
structure ToolInput where
  file_path : Option String := none
  command : Option String := none
  subagent_type : Option String := none
deriving DecidableEq

/-- One content block of a list-shaped message content (`ContentItem` /
`RawToolUse` in the source). -/
inductive ContentBlock where
  | text (t : String)
  | thinking
  | toolUse (name : String) (input : Option ToolInput)
  | other
deriving DecidableEq

/-- A message content field: either a plain string or a list of blocks. -/
inductive MsgContent where
  | str (s : String)
  | blocks (items : List ContentBlock)
deriving DecidableEq

/-- Assistant usage object (`message.usage`); absent integer fields are
`none` and are treated as 0 by the aggregators. -/
structure RawUsage where
  input_tokens : Option Nat := none
  output_tokens : Option Nat := none
  cache_creation_input_tokens : Option Nat := none
  cache_read_input_tokens : Option Nat := none
deriving DecidableEq

/-- The `message` object of a log line. -/
structure RawMsg where
  content : Option MsgContent := none
  usage : Option RawUsage := none
  model : Option String := none
deriving DecidableEq

/-- One successfully parsed JSONL line (`RawMessage` / `RawLineData`). -/
structure RawLine where
  type : String
  uuid : Option String := none
  timestamp : Option String := none
  summary : Option String := none
  message : Option RawMsg := none
deriving DecidableEq

/-- One physical line of a session file; `none` models a line on which
`JSON.parse` throws and which the parser silently skips. -/
abbrev LogLine := Option RawLine

/-- JS truthiness of an optional string field: present and non-empty. -/
def optStrTruthy : Option String → Bool
  | some s => s != ""
  | none => false

/-- JS truthiness of an optional content field: an empty plain string is
falsy, everything else that is present (including an empty block list)
is truthy. -/
def contentTruthy : Option MsgContent → Bool
  | some (.str s) => s != ""
  | some (.blocks _) => true
  | none => false

/-- `data.message?.content`: the optional-chained content of a line. -/
def msgContent (d : RawLine) : Option MsgContent := d.message.bind (·.content)

/-- Embedding of `extractTextContent` from src/lib/parser.ts (also
duplicated verbatim in src/lib/search.ts and as `extractUserText` in
src/lib/insights.ts): a plain string is returned verbatim, a block list
contributes the newline-join of its non-empty `text` blocks. -/
def extractTextContent : MsgContent → String
  | .str s => s
  | .blocks items =>
    String.intercalate ("\n")
      (items.filterMap fun b =>
        match b with
        | .text t => if t != "" then some t else none
        | _ => none)

/-! ## Session Parser (src/lib/parser.ts, parseSessionFile / getMessages) -/

/-- The `Session` record of src/lib/types.ts (the `filePath` field is
omitted: it is the filesystem path, abstracted away here). -/
structure Session where
  id : String
  projectPath : String
  projectName : String
  summary : Option String
  firstMessageTime : String
  lastMessageTime : String
deriving DecidableEq

/-- The loop state of `parseSessionFile`: the four local variables
`summary`, `firstMessageTime`, `lastMessageTime`, `sessionId`. -/
structure MetaState where
  summary : Option String := none
  firstMessageTime : Option String := none
  lastMessageTime : Option String := none
  sessionIdCapture : Option String := none
deriving DecidableEq

/-- One iteration of the `parseSessionFile` loop over a line. -/
def metaStep (st : MetaState) (l : LogLine) : MetaState :=
  match l with
  | none => st
  | some d =>
    let st1 :=
      if d.type == "summary" && optStrTruthy d.summary then
        { st with summary := d.summary }
      else st
    if (d.type == "user" || d.type == "assistant") && optStrTruthy d.timestamp then
      { st1 with
        firstMessageTime :=
          match st1.firstMessageTime with
          | none => d.timestamp
          | some t => some t
        lastMessageTime := d.timestamp
        sessionIdCapture :=
          if optStrTruthy st1.sessionIdCapture then st1.sessionIdCapture
          else if optStrTruthy d.uuid then
            some ((((d.uuid).getD ("")).splitOn ("-")).headD (""))
          else st1.sessionIdCapture }
    else st1

/-- Embedding of `parseSessionFile` from src/lib/parser.ts, over the
decoded line list; the session id is the file base name, passed in, and
the decoded project name is passed in (the directory-name decoding cache
is a filesystem concern outside the claims). Returns `none` when no
user/assistant line carries a (truthy) timestamp. -/
def parseSessionLines (lines : List LogLine) (id projectPath projectName : String) :
    Option Session :=
  let st := lines.foldl metaStep {}
  match st.firstMessageTime, st.lastMessageTime with
  | some f, some l =>
    some { id := id, projectPath := projectPath, projectName := projectName,
           summary := st.summary, firstMessageTime := f, lastMessageTime := l }
  | _, _ => none

/-- `getSession` with the filesystem abstracted: a missing or unreadable
file is `none` and yields no session (the `try/catch` of
`parseSessionFile`). -/
def getSessionFile (file : Option (List LogLine)) (id projectPath projectName : String) :
    Option Session :=
  match file with
  | none => none
  | some lines => parseSessionLines lines id projectPath projectName

/-- The display `Message` record of src/lib/types.ts. -/
structure Message where
  uuid : String
  type : String
  content : String
  timestamp : String
deriving DecidableEq

/-- The per-line body of the `getMessages` loop: a user or assistant line
with truthy content, uuid and timestamp whose extracted text is
non-empty yields a message. The source repeats the same block for the
two types; they are mutually exclusive on `data.type`. -/
def messageOfLine (l : LogLine) : Option Message :=
  match l with
  | none => none
  | some d =>
    if (d.type == "user" || d.type == "assistant") && contentTruthy (msgContent d)
        && optStrTruthy d.uuid && optStrTruthy d.timestamp then
      let text := extractTextContent ((msgContent d).getD (.str ("")))
      if text != "" then
        some { uuid := (d.uuid).getD (""), type := d.type, content := text,
               timestamp := (d.timestamp).getD ("") }
      else none
    else none

/-- Embedding of the `getMessages` loop from src/lib/parser.ts. -/
def getMessagesLines (lines : List LogLine) : List Message :=
  lines.filterMap messageOfLine

/-- `getMessages` with the filesystem abstracted: missing file yields the
empty list. -/
def getMessagesFile (file : Option (List LogLine)) : List Message :=
  match file with
  | none => []
  | some lines => getMessagesLines lines

/-- A line that makes a session exist: type user or assistant and a
truthy timestamp (the guard on lines 135-144 of src/lib/parser.ts). -/
def isQualifyingLine (l : LogLine) : Bool :=
  match l with
  | some d => (d.type == "user" || d.type == "assistant") && optStrTruthy d.timestamp
  | none => false

/-- The first truthy `summary` value of a `type:"summary"` line, in file
order (the reading the spec asserts). -/
def firstTruthySummary : List LogLine → Option String
  | [] => none
  | some d :: rest =>
    if d.type == "summary" && optStrTruthy d.summary then d.summary
    else firstTruthySummary rest
  | none :: rest => firstTruthySummary rest

/-- The last truthy `summary` value of a `type:"summary"` line, in file
order (what the overwriting assignment in `parseSessionFile` keeps). -/
def lastTruthySummary : List LogLine → Option String
  | [] => none
  | l :: rest =>
    match lastTruthySummary rest with
    | some v => some v
    | none =>
      match l with
      | some d => if d.type == "summary" && optStrTruthy d.summary then d.summary else none
      | none => none

/-! ## Task Segmenter and Phase Classifier (src/lib/parser.ts,
getSessionSummary / detectPhases / truncateText / extractFileName) -/

/-- The five-valued phase tag (`TaskPhase` in src/lib/types.ts). -/
inductive TaskPhase where
  | investigation
  | planning
  | implementation
  | verification
  | immediate
deriving DecidableEq

/-- A recorded tool call (`ToolCall` in src/lib/types.ts): name, input
and the enclosing message timestamp. -/
structure ToolCall where
  name : String
  input : Option ToolInput
  timestamp : String
deriving DecidableEq

/-- One task of the session summary (`TaskSummary` in src/lib/types.ts). -/
structure TaskSummary where
  id : Nat
  userMessage : String
  timestamp : String
  phases : List TaskPhase
  toolCalls : List ToolCall
  filesRead : List String
  filesModified : List String
  filesCreated : List String
  commandsRun : List String
deriving DecidableEq

/-- The session-level stats block of `SessionSummary`. -/
structure SessionStats where
  filesRead : Nat
  filesModified : Nat
  filesCreated : Nat
  commandsRun : Nat
  searchCount : Nat
  webSearchCount : Nat
deriving DecidableEq

/-- The session summary record (`SessionSummary` in src/lib/types.ts). -/
structure SessionSummary where
  sessionId : String
  totalTasks : Nat
  tasks : List TaskSummary
  stats : SessionStats
deriving DecidableEq

/-- Embedding of `extractUserText` from src/lib/parser.ts; its body is
identical to `extractTextContent`. -/
def extractUserText : MsgContent → String := extractTextContent

/-- Embedding of `extractToolCalls` from src/lib/parser.ts: the
`tool_use` blocks with a truthy name, stamped with the enclosing message
timestamp. -/
def extractToolCalls (content : MsgContent) (timestamp : String) : List ToolCall :=
  match content with
  | .str _ => []
  | .blocks items =>
    items.filterMap fun b =>
      match b with
      | .toolUse name input =>
        if name != "" then some { name := name, input := input, timestamp := timestamp }
        else none
      | _ => none

/-- The `\s` class of the JS regexes, restricted to its ASCII members
(the claims only exercise ASCII commands). -/
def isRegexWS (c : Char) : Bool :=
  c == ' ' || c == '\t' || c == '\n' || c == '\r' || c == '\x0b' || c == '\x0c'

/-- Match, at the start of `s`, a sequence of literal words separated by
`\s+` (one or more whitespace characters). None of the words used below
begins with whitespace, so greedy whitespace consumption is faithful. -/
def wordsSeqAt : List (List Char) → List Char → Bool
  | [], _ => true
  | [w], s => startsWithList w s
  | w :: ws, s =>
    startsWithList w s &&
      (let rest := s.drop w.length
       match rest with
       | [] => false
       | c :: _ => isRegexWS c && wordsSeqAt ws (rest.dropWhile isRegexWS))

/-- Embedding of the unanchored verification-command regex of
`detectPhases`:
`(npm\s+(test|run\s+build|run\s+lint)|pytest|jest|cargo\s+test)`. -/
def verifyCmdPattern (s : List Char) : Bool :=
  s.tails.any fun t =>
    wordsSeqAt [("npm").data, ("test").data] t ||
    wordsSeqAt [("npm").data, ("run").data, ("build").data] t ||
    wordsSeqAt [("npm").data, ("run").data, ("lint").data] t ||
    startsWithList ("pytest").data t ||
    startsWithList ("jest").data t ||
    wordsSeqAt [("cargo").data, ("test").data] t

/-- The `input.subagent_type` of a tool call, through the optional
chain. -/
def subagentOf (t : ToolCall) : Option String := t.input.bind (·.subagent_type)

/-- The `input.command` of a tool call when it is a string. -/
def commandOf (t : ToolCall) : Option String := t.input.bind (·.command)

/-- Embedding of `detectPhases` from src/lib/parser.ts. -/
def detectPhases (toolCalls : List ToolCall) : List TaskPhase :=
  let hasInvestigation := toolCalls.any fun t =>
    (t.name == "Read" || t.name == "Glob" || t.name == "Grep" || t.name == "Task") &&
      (t.name != "Task" || subagentOf t == some ("Explore"))
  let hasPlanning := toolCalls.any fun t =>
    t.name == "TodoWrite" || (t.name == "Task" && subagentOf t == some ("Plan"))
  let hasImplementation := toolCalls.any fun t => t.name == "Edit" || t.name == "Write"
  let hasVerification := toolCalls.any fun t =>
    t.name == "Bash" &&
      (match commandOf t with
       | some cmd => verifyCmdPattern cmd.data
       | none => false)
  let phases :=
    (if hasInvestigation then [TaskPhase.investigation] else []) ++
      (if hasPlanning then [TaskPhase.planning] else []) ++
      (if hasImplementation then [TaskPhase.implementation] else []) ++
      (if hasVerification then [TaskPhase.verification] else [])
  if phases.isEmpty then [TaskPhase.immediate] else phases

/-- Embedding of `extractFileName` from src/lib/parser.ts: the last two
path segments, or the whole path when it has at most two. -/
def extractFileName (fullPath : String) : String :=
  let parts := fullPath.splitOn ("/")
  if parts.length ≤ 2 then fullPath
  else String.intercalate ("/") (parts.drop (parts.length - 2))

/-- Fuelled worker for the global non-greedy replacement of
`openTag ... closeTag` pairs by nothing (the two `<command-message>` and
`<command-name>` replacements of `truncateText`). -/
def stripTagPairAux : Nat → List Char → List Char → List Char → List Char
  | 0, _, _, s => s
  | fuel + 1, openTag, closeTag, s =>
    match findIdx openTag s with
    | none => s
    | some i =>
      let afterOpen := s.drop (i + openTag.length)
      match findIdx closeTag afterOpen with
      | none => s
      | some j =>
        s.take i ++ stripTagPairAux fuel openTag closeTag (afterOpen.drop (j + closeTag.length))

/-- Global non-greedy removal of `openTag ... closeTag` spans. -/
def stripTagPair (openTag closeTag s : List Char) : List Char :=
  stripTagPairAux (s.length + 1) openTag closeTag s

/-- Fuelled worker for the `/<[^>]+>/g` removal of `truncateText`: at a
`<`, the greedy `[^>]+` runs exactly to the next `>`, requiring at least
one character in between. -/
def stripAngleAux : Nat → List Char → List Char
  | 0, s => s
  | fuel + 1, s =>
    match s with
    | [] => []
    | c :: rest =>
      if c == '<' then
        match findIdx ['>'] rest with
        | none => c :: stripAngleAux fuel rest
        | some j =>
          if j == 0 then c :: stripAngleAux fuel rest
          else stripAngleAux fuel (rest.drop (j + 1))
      else c :: stripAngleAux fuel rest

/-- Model of `String.prototype.trim` (whitespace restricted to the ASCII
`\s` members exercised by the claims). -/
def jsTrim (s : List Char) : List Char :=
  ((s.dropWhile isRegexWS).reverse.dropWhile isRegexWS).reverse

/-- Embedding of `truncateText` from src/lib/parser.ts: strip
command-message and command-name spans, strip remaining angle-bracket
tags, trim, then truncate to `maxLength` with a trailing ellipsis. -/
def truncateText (text : String) (maxLength : Nat) : String :=
  let s1 := stripTagPair ("<command-message>").data ("</command-message>").data text.data
  let s2 := stripTagPair ("<command-name>").data ("</command-name>").data s1
  let s3 := stripAngleAux (s2.length + 1) s2
  let cleaned := String.mk (jsTrim s3)
  if cleaned.length ≤ maxLength then cleaned
  else String.mk (cleaned.data.take maxLength) ++ "..."

/-- The loop state of `getSessionSummary`: accumulated tasks, the open
task, the task counter, and the session-level stat accumulators. The JS
`Set`s are modelled as insertion-ordered duplicate-free lists. -/
structure SummaryState where
  tasks : List TaskSummary := []
  currentTask : Option TaskSummary := none
  taskId : Nat := 0
  allFilesRead : List String := []
  allFilesModified : List String := []
  allFilesCreated : List String := []
  commandsRun : Nat := 0
  searchCount : Nat := 0
  webSearchCount : Nat := 0
deriving DecidableEq

/-- `Set.add` on the insertion-ordered list model. -/
def setAdd (x : String) (l : List String) : List String :=
  if x ∈ l then l else l ++ [x]

/-- The switch body of `getSessionSummary` for one tool call: the call is
appended to the open task, then bucketed by tool name into the per-task
lists and the session-level stats. -/
def applyToolCall (st : SummaryState) (task : TaskSummary) (tool : ToolCall) :
    SummaryState × TaskSummary :=
  let task := { task with toolCalls := task.toolCalls ++ [tool] }
  let input := tool.input.getD {}
  if tool.name == "Bash" then
    match input.command with
    | some c =>
      if c != "" then
        ({ st with commandsRun := st.commandsRun + 1 },
         { task with commandsRun := task.commandsRun ++ [truncateText c 50] })
      else (st, task)
    | none => (st, task)
  else if tool.name == "Read" then
    match input.file_path with
    | some fp0 =>
      if fp0 != "" then
        let fp := extractFileName fp0
        ({ st with allFilesRead := setAdd fp st.allFilesRead },
         { task with filesRead := if fp ∈ task.filesRead then task.filesRead
                                  else task.filesRead ++ [fp] })
      else (st, task)
    | none => (st, task)
  else if tool.name == "Edit" then
    match input.file_path with
    | some fp0 =>
      if fp0 != "" then
        let fp := extractFileName fp0
        ({ st with allFilesModified := setAdd fp st.allFilesModified },
         { task with filesModified := if fp ∈ task.filesModified then task.filesModified
                                      else task.filesModified ++ [fp] })
      else (st, task)
    | none => (st, task)
  else if tool.name == "Write" then
    match input.file_path with
    | some fp0 =>
      if fp0 != "" then
        let fp := extractFileName fp0
        ({ st with allFilesCreated := setAdd fp st.allFilesCreated },
         { task with filesCreated := if fp ∈ task.filesCreated then task.filesCreated
                                     else task.filesCreated ++ [fp] })
      else (st, task)
    | none => (st, task)
  else if tool.name == "Glob" || tool.name == "Grep" then
    ({ st with searchCount := st.searchCount + 1 }, task)
  else if tool.name == "WebSearch" || tool.name == "WebFetch" then
    ({ st with webSearchCount := st.webSearchCount + 1 }, task)
  else (st, task)

/-- One iteration of the `getSessionSummary` loop over a line: a
qualifying user line (non-empty extracted text not starting with a
tool-result or system-reminder marker) flushes the open task and starts
a new one; an assistant line feeds its tool calls to the open task, if
any. -/
def summaryLineStep (st : SummaryState) (l : LogLine) : SummaryState :=
  match l with
  | none => st
  | some d =>
    let st :=
      if d.type == "user" && contentTruthy (msgContent d) && optStrTruthy d.timestamp then
        let textContent := extractUserText ((msgContent d).getD (.str ("")))
        if textContent != "" &&
            !(startsWithList ("<function_results>").data textContent.data) &&
            !(startsWithList ("<system-reminder>").data textContent.data) then
          let st1 :=
            match st.currentTask with
            | some t =>
              { st with
                tasks := st.tasks ++ [{ t with phases := detectPhases t.toolCalls }]
                currentTask := none }
            | none => st
          { st1 with
            taskId := st1.taskId + 1
            currentTask := some
              { id := st1.taskId + 1
                userMessage := truncateText textContent 200
                timestamp := (d.timestamp).getD ("")
                phases := []
                toolCalls := []
                filesRead := []
                filesModified := []
                filesCreated := []
                commandsRun := [] } }
        else st
      else st
    if d.type == "assistant" && contentTruthy (msgContent d) && optStrTruthy d.timestamp then
      match st.currentTask with
      | none => st
      | some task =>
        let tools := extractToolCalls ((msgContent d).getD (.str (""))) ((d.timestamp).getD (""))
        let p := tools.foldl (fun (p : SummaryState × TaskSummary) tool =>
          applyToolCall p.1 p.2 tool) (st, task)
        { p.1 with currentTask := some p.2 }
    else st

/-- Embedding of `getSessionSummary` from src/lib/parser.ts over the
decoded line list: fold the per-line step, flush the final open task,
and assemble the summary with the session-level stats. -/
def getSessionSummaryLines (lines : List LogLine) (sessionId : String) : SessionSummary :=
  let st := lines.foldl summaryLineStep {}
  let finalTasks :=
    match st.currentTask with
    | some t => st.tasks ++ [{ t with phases := detectPhases t.toolCalls }]
    | none => st.tasks
  { sessionId := sessionId
    totalTasks := finalTasks.length
    tasks := finalTasks
    stats :=
      { filesRead := st.allFilesRead.length
        filesModified := st.allFilesModified.length
        filesCreated := st.allFilesCreated.length
        commandsRun := st.commandsRun
        searchCount := st.searchCount
        webSearchCount := st.webSearchCount } }

/-- `getSessionSummary` with the filesystem abstracted: a missing file
yields `none`. -/
def getSessionSummaryFile (file : Option (List LogLine)) (sessionId : String) :
    Option SessionSummary :=
  match file with
  | none => none
  | some lines => some (getSessionSummaryLines lines sessionId)

/-- A line whose parse succeeds with type `assistant`. -/
def isAssistantLine (l : LogLine) : Bool :=
  match l with
  | some d => d.type == "assistant"
  | none => false

/-! ## Cross-Session Search Engine (src/lib/search.ts, searchSessions).
Timestamps are compared through an abstract parse function
`toTime : String → Int` giving instants in milliseconds; query date
bounds are modelled as day numbers `d`, so that `new Date(dateFrom)` is
the instant `d * 86400000` (midnight) and the mutation
`dateTo.setHours(23,59,59,999)` yields `d * 86400000 + 86399999`, the
model running at timezone offset zero. -/

/-- One search hit (`SearchMatch` in src/lib/types.ts). -/
structure SearchMatch where
  messageRole : String
  snippet : String
  timestamp : String
  lineIndex : Nat
deriving DecidableEq

/-- One per-session search result (`SearchResult` in src/lib/types.ts). -/
structure SearchResult where
  sessionId : String
  projectName : String
  sessionTimestamp : String
  matchList : List SearchMatch
  totalMatches : Nat
deriving DecidableEq

/-- The search query (`SearchQuery` in src/lib/types.ts) with date
bounds as day numbers as described above. -/
structure SearchQuery where
  query : String
  projectFilter : Option String := none
  dateFrom : Option Int := none
  dateTo : Option Int := none
  toolFilter : Option String := none
deriving DecidableEq

/-- Milliseconds per day. -/
def msPerDay : Int := 86400000

/-- `MAX_MATCHES_PER_SESSION` from src/lib/search.ts. -/
def MAX_MATCHES_PER_SESSION : Nat := 10

/-- Model of `String.prototype.toLowerCase` (character-wise; the claims
only exercise ASCII text). -/
def strLower (s : String) : String := String.mk (s.data.map Char.toLower)

/-- Embedding of `extractToolNames` from src/lib/search.ts. -/
def extractToolNames (content : MsgContent) : List String :=
  match content with
  | .str _ => []
  | .blocks items =>
    items.filterMap fun b =>
      match b with
      | .toolUse name _ => if name != "" then some name else none
      | _ => none

/-- Worker for the `/\s+/g → " "` whitespace collapse of
`generateSnippet`; the flag records whether the previous character was
whitespace. -/
def collapseWsFrom : Bool → List Char → List Char
  | _, [] => []
  | prevWs, c :: rest =>
    if isRegexWS c then
      if prevWs then collapseWsFrom true rest
      else ' ' :: collapseWsFrom true rest
    else c :: collapseWsFrom false rest

/-- Embedding of `generateSnippet` from src/lib/search.ts: 50 characters
of context either side, whitespace collapsed, ellipsis at truncated
ends. -/
def generateSnippet (text : List Char) (matchStart matchLength : Nat) : String :=
  let contextChars := 50
  let snippetStart := matchStart - contextChars
  let snippetEnd := min text.length (matchStart + matchLength + contextChars)
  let snippet := (text.drop snippetStart).take (snippetEnd - snippetStart)
  let snippet := collapseWsFrom false snippet
  let snippet := if 0 < snippetStart then ("...").data ++ snippet else snippet
  let snippet := if snippetEnd < text.length then snippet ++ ("...").data else snippet
  String.mk snippet

/-- The inner `while` loop of `searchSessions`: collect the start
indices of the non-overlapping occurrences of `term` in `textL` found by
repeated `indexOf`, starting at `pos`, with at most `cap` further
matches allowed. -/
def collectOcc (term textL : List Char) (pos : Nat) (cap : Nat) : List Nat :=
  match cap with
  | 0 => []
  | cap + 1 =>
    if pos < textL.length then
      match findIdx term (textL.drop pos) with
      | none => []
      | some j => (pos + j) :: collectOcc term textL (pos + j + term.length) cap
    else []

/-- The per-file scan state of `searchSessions`: the collected matches,
the session anchor timestamp, and the tool-filter-satisfied flag. -/
structure ScanState where
  matchList : List SearchMatch := []
  sessionTimestamp : String := ""
  toolOk : Bool := true
deriving DecidableEq

/-- Timestamp tracking of the per-file loop: record the first truthy
timestamp seen. -/
def trackTimestamp (st : ScanState) (d : RawLine) : ScanState :=
  if optStrTruthy d.timestamp && st.sessionTimestamp == "" then
    { st with sessionTimestamp := (d.timestamp).getD ("") }
  else st

/-- Tool-filter tracking of the per-file loop: flip the flag once an
assistant line carries a case-insensitive name match to the filter. -/
def trackToolFilter (toolFilter : Option String) (st : ScanState) (d : RawLine) : ScanState :=
  if optStrTruthy toolFilter && !st.toolOk && d.type == "assistant"
      && contentTruthy (msgContent d) then
    if (extractToolNames ((msgContent d).getD (.str ("")))).any
        (fun name => strLower name == strLower (toolFilter.getD (""))) then
      { st with toolOk := true }
    else st
  else st

/-- Match collection of the per-file loop: a user or assistant line with
truthy content and timestamp contributes its non-overlapping
case-insensitive occurrences, up to the remaining capacity. -/
def collectLineMatches (term : List Char) (qlen : Nat) (lineIndex : Nat)
    (st : ScanState) (d : RawLine) : ScanState :=
  if (d.type == "user" || d.type == "assistant") && contentTruthy (msgContent d)
      && optStrTruthy d.timestamp then
    let text := extractTextContent ((msgContent d).getD (.str ("")))
    if text == "" then st
    else
      let textL := (strLower text).data
      let idxs := collectOcc term textL 0 (MAX_MATCHES_PER_SESSION - st.matchList.length)
      { st with
        matchList := st.matchList ++ idxs.map fun i =>
          { messageRole := d.type
            snippet := generateSnippet text.data i qlen
            timestamp := (d.timestamp).getD ("")
            lineIndex := lineIndex } }
  else st

/-- One iteration of the per-file line loop of `searchSessions`: the
three sequential statements of the loop body in source order. -/
def searchLineStep (term : List Char) (qlen : Nat) (toolFilter : Option String)
    (lineIndex : Nat) (st : ScanState) (l : LogLine) : ScanState :=
  match l with
  | none => st
  | some d =>
    collectLineMatches term qlen lineIndex (trackToolFilter toolFilter (trackTimestamp st d) d) d

/-- The per-file line loop, with the early `break` once the match cap is
reached. -/
def searchScanLines (term : List Char) (qlen : Nat) (toolFilter : Option String) :
    List LogLine → Nat → ScanState → ScanState
  | [], _, st => st
  | l :: rest, idx, st =>
    if MAX_MATCHES_PER_SESSION ≤ st.matchList.length then st
    else searchScanLines term qlen toolFilter rest (idx + 1)
        (searchLineStep term qlen toolFilter idx st l)

/-- The date-range filter of `searchSessions` applied to the session
anchor timestamp: skipped (true) when the anchor is empty or no bound is
given; otherwise `dateFrom` is the midnight instant of its day and
`dateTo` is mutated to 23:59:59.999 of its day, both inclusive. -/
def dateFilterOk (toTime : String → Int) (q : SearchQuery) (ts : String) : Bool :=
  if ts != "" && (q.dateFrom.isSome || q.dateTo.isSome) then
    (match q.dateFrom with
     | some df => !decide (toTime ts < df * msPerDay)
     | none => true) &&
      (match q.dateTo with
       | some dt => !decide (dt * msPerDay + (msPerDay - 1) < toTime ts)
       | none => true)
  else true

/-- The `sessionHasToolFilter` initialisation of the per-file scan:
vacuously satisfied when no tool filter is given. -/
def initialScanState (q : SearchQuery) : ScanState :=
  { matchList := [], sessionTimestamp := "", toolOk := !optStrTruthy q.toolFilter }

/-- Embedding of the per-file body of `searchSessions`: scan the lines,
then apply the date filter on the anchor timestamp, the tool filter, and
the non-empty-matches check. -/
def scanSessionLines (toTime : String → Int) (q : SearchQuery)
    (projectName sessionId : String) (lines : List LogLine) : Option SearchResult :=
  let term := (strLower q.query).data
  let st := searchScanLines term q.query.length q.toolFilter lines 0 (initialScanState q)
  if !dateFilterOk toTime q st.sessionTimestamp then none
  else if optStrTruthy q.toolFilter && !st.toolOk then none
  else if 0 < st.matchList.length then
    some { sessionId := sessionId, projectName := projectName,
           sessionTimestamp := st.sessionTimestamp,
           matchList := st.matchList, totalMatches := st.matchList.length }
  else none

/-- Stable descending insertion by `totalMatches`, modelling the stable
JS `sort((a, b) => b.totalMatches - a.totalMatches)`. -/
def insertByMatchesDesc (r : SearchResult) : List SearchResult → List SearchResult
  | [] => [r]
  | x :: xs =>
    if x.totalMatches ≤ r.totalMatches then r :: x :: xs
    else x :: insertByMatchesDesc r xs

/-- Stable descending sort by `totalMatches`. -/
def sortByMatchesDesc : List SearchResult → List SearchResult
  | [] => []
  | r :: rest => insertByMatchesDesc r (sortByMatchesDesc rest)

/-- Embedding of `searchSessions` over an abstracted corpus: a list of
(project name, session id, decoded lines) triples standing for the
directory walk (the project filter is not modelled: no claim involves
it). A blank query yields no results; otherwise each file is scanned and
the surviving results are sorted by `totalMatches` descending. -/
def searchSessionsF (toTime : String → Int) (q : SearchQuery)
    (sessions : List (String × String × List LogLine)) : List SearchResult :=
  if String.mk (jsTrim q.query.data) == "" then []
  else
    sortByMatchesDesc (sessions.filterMap fun s =>
      scanSessionLines toTime q s.1 s.2.1 s.2.2)

/-- Count of all non-overlapping occurrences of `needle` in `hay` by the
greedy left-to-right scan of the source (fuelled worker). -/
def countOccAux : Nat → List Char → List Char → Nat
  | 0, _, _ => 0
  | fuel + 1, needle, hay =>
    match findIdx needle hay with
    | none => 0
    | some j => 1 + countOccAux fuel needle (hay.drop (j + needle.length))

/-- Count of all non-overlapping occurrences of `needle` in `hay`. -/
def countOcc (needle hay : List Char) : Nat := countOccAux (hay.length + 1) needle hay

/-- Occurrence count contributed by one line to a session under the
source condition: user or assistant type, truthy content AND truthy
timestamp. -/
def lineOccCount (q : SearchQuery) (l : LogLine) : Nat :=
  match l with
  | none => 0
  | some d =>
    if (d.type == "user" || d.type == "assistant") && contentTruthy (msgContent d)
        && optStrTruthy d.timestamp then
      countOcc (strLower q.query).data
        (strLower (extractTextContent ((msgContent d).getD (.str ("" : String))))).data
    else 0

/-- Occurrence count contributed by one line as the claim words it: every
user or assistant line, timestamp or not. -/
def lineOccCountClaim (q : SearchQuery) (l : LogLine) : Nat :=
  match l with
  | none => 0
  | some d =>
    if d.type == "user" || d.type == "assistant" then
      countOcc (strLower q.query).data
        (strLower (extractTextContent ((msgContent d).getD (.str ("" : String))))).data
    else 0

/-- The anchor timestamp of a session file: the first truthy timestamp
on any line, or the empty string. -/
def anchorTimestamp : List LogLine → String
  | [] => ""
  | some d :: rest =>
    if optStrTruthy d.timestamp then (d.timestamp).getD ("") else anchorTimestamp rest
  | none :: rest => anchorTimestamp rest

/-- A line that carries a truthy timestamp. -/
def lineHasTruthyTs (l : LogLine) : Bool :=
  match l with
  | some d => optStrTruthy d.timestamp
  | none => false

/-! ## Insights recommendations (src/lib/insights.ts,
generateRecommendations and the fallback in getInsights) -/

/-- One scored sub-score (`InsightDetail` in src/lib/types.ts). -/
structure InsightDetail where
  category : String
  score : Int
  finding : String
deriving DecidableEq

/-- Embedding of the `recommendationMap` lookup table of
`generateRecommendations` (category to advice text). -/
def recommendationAdvice (category : String) : Option String :=
  if category == "ツール選択の適切さ" then
    some ("Bashでcat/grepを使う代わりに、Read/Grepツールを活用しましょう。Claude Codeの専用ツールの方が効率的です。")
  else if category == "Plan Mode活用" then
    some ("複雑なタスクにはPlan Modeを活用しましょう。事前に計画を立てることで、実装の質と効率が向上します。")
  else if category == "テスト・ビルド検証率" then
    some ("コード変更後は必ずテスト・ビルドで検証しましょう。バグの早期発見につながります。")
  else if category == "サブエージェント活用" then
    some ("サブエージェント(Task)を活用しましょう。並列調査や独立したサブタスクの実行に効果的です。")
  else if category == "CLAUDE.md整備" then
    some ("プロジェクトのルートにCLAUDE.mdを作成しましょう。プロジェクトの構造や規約を記述すると、Claudeがより的確に動きます。")
  else if category == "指示の具体性" then
    some ("指示をより具体的にしましょう。変更したいファイル名、期待する動作、受け入れ基準を明記すると、Claudeがより的確に動きます。")
  else if category == "コンテキスト提供度" then
    some ("指示に対象ファイルのパスを含めましょう。ファイルパスを明示することで、Claudeが正確にコードを特定できます。")
  else if category == "初期指示の的確さ" then
    some ("最初の指示で要件を明確に伝えましょう。背景・目的・制約を含めると、手戻りなく作業が進みます。")
  else if category == "軌道修正の少なさ" then
    some ("指示を出す前に要件を整理しましょう。「何を」「なぜ」「どの範囲で」を事前に明確にすると、軌道修正が減ります。")
  else if category == "トークン効率" then
    some ("トークン消費に対して実装量を増やしましょう。調査フェーズを効率化し、実装・検証に注力することが重要です。")
  else if category == "フェーズバランス" then
    some ("調査と実装のバランスを見直しましょう。調査で得た知見を素早く実装に移すことで、作業密度が向上します。")
  else if category == "手戻りの少なさ" then
    some ("同一ファイルの繰り返し編集を減らしましょう。編集前に設計を固め、一度で正確に変更することを心がけましょう。")
  else none

/-- `recommendationMap[d.category] || d.finding`. -/
def adviceFor (d : InsightDetail) : String :=
  (recommendationAdvice d.category).getD d.finding

/-- Stable ascending insertion by score, modelling the stable JS
`sort((a, b) => a.score - b.score)`. -/
def insertByScoreAsc (d : InsightDetail) : List InsightDetail → List InsightDetail
  | [] => [d]
  | x :: xs => if d.score ≤ x.score then d :: x :: xs else x :: insertByScoreAsc d xs

/-- Stable ascending sort by score. -/
def sortByScoreAsc : List InsightDetail → List InsightDetail
  | [] => []
  | d :: rest => insertByScoreAsc d (sortByScoreAsc rest)

/-- Embedding of `generateRecommendations` from src/lib/insights.ts: the
sub-scores strictly below 60, sorted ascending by score (stable), capped
at 5 and mapped through the advice table with the finding text as
fallback. -/
def generateRecommendations (bp iq wd : List InsightDetail) : List String :=
  let allDetails := bp ++ iq ++ wd
  let lowScoreDetails := sortByScoreAsc (allDetails.filter fun d => d.score < 60)
  (lowScoreDetails.take 5).map adviceFor

/-- The positive-affirmation fallback message of `getInsights`. -/
def positiveRecommendation : String := "素晴らしい活用力です！現在の使い方を維持しましょう。"

/-- The recommendation list as `getInsights` returns it when at least one
session was analyzed: `generateRecommendations`, or the single
positive-affirmation message when it is empty. -/
def recommendationsWithFallback (bp iq wd : List InsightDetail) : List String :=
  let recs := generateRecommendations bp iq wd
  if recs.isEmpty then [positiveRecommendation] else recs

/-- The recommendation list as the claim words it: the 5 lowest-scoring
sub-scores overall (ties by encounter order) mapped through the table,
with the positive message only when every sub-score is at least 60. -/
def claimRecommendations (bp iq wd : List InsightDetail) : List String :=
  let allDetails := bp ++ iq ++ wd
  if allDetails.all (fun d => 60 ≤ d.score) then [positiveRecommendation]
  else ((sortByScoreAsc allDetails).take 5).map adviceFor

/-! ## Helper lemmas -/

lemma startsWithList_head_mem {p : Char} {ps t : List Char}
    (h : startsWithList (p :: ps) t = true) : p ∈ t := by
  cases t with
  | nil => simp [startsWithList] at h
  | cons c cs =>
    simp only [startsWithList, Bool.and_eq_true, beq_iff_eq] at h
    simp [h.1]

lemma hasSub_head_mem {p : Char} {ps s : List Char}
    (h : hasSub (p :: ps) s = true) : p ∈ s := by
  unfold hasSub at h
  rw [List.any_eq_true] at h
  obtain ⟨t, ht, hs⟩ := h
  exact ((List.mem_tails _ _).mp ht).subset (startsWithList_head_mem hs)

lemma string_length_eq_data (s : String) : s.length = s.data.length := rfl

/-! ## C1 -/

/-- C1: the identifier validator used before any filesystem access
(`isValidPathSegment`, applied to both the project and session
parameters of the export API) accepts a string iff it is 1 to 256
characters long and consists only of characters `[A-Za-z0-9_-]`; in
particular "../etc", "a/b", any string containing a NUL byte, and any
300-character string are rejected, while "abc-123_DEF" is accepted. -/
theorem C1_isValidPathSegment_characterization :
    (∀ s : String, isValidPathSegment s = true ↔
        (1 ≤ s.length ∧ s.length ≤ 256 ∧ ∀ c ∈ s.data, isWordChar c = true))
    ∧ isValidPathSegment ("../etc") = false
    ∧ isValidPathSegment ("a/b") = false
    ∧ (∀ s : String, '\x00' ∈ s.data → isValidPathSegment s = false)
    ∧ (∀ s : String, s.length = 300 → isValidPathSegment s = false)
    ∧ isValidPathSegment ("abc-123_DEF") = true := by
  have hiff : ∀ s : String, isValidPathSegment s = true ↔
      (1 ≤ s.length ∧ s.length ≤ 256 ∧ ∀ c ∈ s.data, isWordChar c = true) := by
    intro s
    constructor
    · intro h
      unfold isValidPathSegment at h
      split at h
      · exact absurd h (by simp)
      · split at h
        · exact absurd h (by simp)
        · split at h
          · exact absurd h (by simp)
          · rename_i h1 _ _
            rw [Bool.and_eq_true, List.all_eq_true] at h
            push_neg at h1
            exact ⟨Nat.one_le_iff_ne_zero.mpr h1.1, h1.2, h.2⟩
    · rintro ⟨h1, h2, hchar⟩
      unfold isValidPathSegment
      have hlen0 : ¬(s.length = 0 ∨ s.length > 256) := by omega
      rw [if_neg hlen0]
      have hdot : hasSub ['.', '.'] s.data = false := by
        by_contra hc
        rw [Bool.not_eq_false] at hc
        have := hchar _ (hasSub_head_mem hc)
        simp [isWordChar] at this
      have hslash : hasSub ['/'] s.data = false := by
        by_contra hc
        rw [Bool.not_eq_false] at hc
        have := hchar _ (hasSub_head_mem hc)
        simp [isWordChar] at this
      have hback : hasSub ['\\'] s.data = false := by
        by_contra hc
        rw [Bool.not_eq_false] at hc
        have := hchar _ (hasSub_head_mem hc)
        simp [isWordChar] at this
      have hnul : hasSub ['\x00'] s.data = false := by
        by_contra hc
        rw [Bool.not_eq_false] at hc
        have := hchar _ (hasSub_head_mem hc)
        simp [isWordChar] at this
      have hne : s.data.isEmpty = false := by
        rw [List.isEmpty_eq_false_iff_exists_mem]
        rw [string_length_eq_data] at h1
        exact List.exists_mem_of_length_pos h1
      simp [hdot, hslash, hback, hnul, hne, List.all_eq_true]
      exact hchar
  have hnulCase : ∀ s : String, '\x00' ∈ s.data → isValidPathSegment s = false := by
    intro s hmem
    unfold isValidPathSegment
    split
    · rfl
    · split
      · rfl
      · have hx : hasSub ['\x00'] s.data = true := by
          unfold hasSub
          rw [List.any_eq_true]
          obtain ⟨l1, l2, heq⟩ := List.append_of_mem hmem
          refine ⟨'\x00' :: l2, ?_, by simp [startsWithList]⟩
          rw [List.mem_tails]
          exact ⟨l1, heq.symm⟩
        rw [if_pos hx]
  have h300 : ∀ s : String, s.length = 300 → isValidPathSegment s = false := by
    intro s hlen
    unfold isValidPathSegment
    have : s.length = 0 ∨ s.length > 256 := by omega
    rw [if_pos this]
  exact ⟨hiff, by decide, by decide, hnulCase, h300, by decide⟩

/-- Witness for C1 at concrete inputs: a string with an embedded NUL and
a 300-character string, both rejected. -/
theorem C1_witness :
    isValidPathSegment ("a\x00b") = false ∧
    isValidPathSegment (String.mk (List.replicate 300 'a')) = false :=
  ⟨C1_isValidPathSegment_characterization.2.2.2.1 ("a\x00b") (by decide),
   C1_isValidPathSegment_characterization.2.2.2.2.1 (String.mk (List.replicate 300 'a'))
     (by show (List.replicate 300 'a').length = 300; simp only [List.length_replicate])⟩

/-! ## C8 -/

/-- C8: `calculateTokenCost` is linear in the four usage fields (additive
and homogeneous pointwise), returns 0 on the all-zero tuple, and on the
usage (1000, 500, 200, 100) returns the dot product with the named
`TOKEN_PRICES` table, whose exact value is 0.01128. -/
theorem C8_calculateTokenCost_linear :
    (∀ u v : TokenUsage,
        calculateTokenCost (TokenUsage.add u v) = calculateTokenCost u + calculateTokenCost v)
    ∧ (∀ (k : ℚ) (u : TokenUsage),
        calculateTokenCost (TokenUsage.smul k u) = k * calculateTokenCost u)
    ∧ calculateTokenCost TokenUsage.zero = 0
    ∧ calculateTokenCost
        { inputTokens := 1000, outputTokens := 500,
          cacheCreationInputTokens := 200, cacheReadInputTokens := 100 } =
        1000 * TOKEN_PRICES.input + 500 * TOKEN_PRICES.output +
          200 * TOKEN_PRICES.cacheWrite + 100 * TOKEN_PRICES.cacheRead
    ∧ calculateTokenCost
        { inputTokens := 1000, outputTokens := 500,
          cacheCreationInputTokens := 200, cacheReadInputTokens := 100 } = 0.01128 := by
  refine ⟨?_, ?_, ?_, rfl, ?_⟩
  · intro u v
    simp only [calculateTokenCost, TokenUsage.add]
    ring
  · intro k u
    simp only [calculateTokenCost, TokenUsage.smul]
    ring
  · simp [calculateTokenCost, TokenUsage.zero]
  · norm_num [calculateTokenCost, TOKEN_PRICES]

/-! ## C2 / C3 helper lemmas on the parseSessionFile loop -/

/-- The summary contribution of a single line: its truthy `summary` field
when it is a summary-typed line. -/
def summaryOfLine (l : LogLine) : Option String :=
  match l with
  | some d => if d.type == "summary" && optStrTruthy d.summary then d.summary else none
  | none => none

lemma metaStep_summary (st : MetaState) (l : LogLine) :
    (metaStep st l).summary = (summaryOfLine l).or st.summary := by
  cases l with
  | none => rfl
  | some d =>
    simp only [metaStep, summaryOfLine]
    by_cases h1 : (d.type == "summary" && optStrTruthy d.summary) = true
    · have hd : ∃ v, d.summary = some v := by
        rw [Bool.and_eq_true] at h1
        cases hds : d.summary with
        | none => rw [hds] at h1; simp [optStrTruthy] at h1
        | some v => exact ⟨v, rfl⟩
      obtain ⟨v, hd⟩ := hd
      rw [hd] at h1 ⊢
      rw [if_pos h1]
      split <;> simp [if_pos h1, Option.or]
    · rw [if_neg h1, if_neg h1]
      split <;> simp [Option.or]

lemma foldl_metaStep_summary (lines : List LogLine) :
    ∀ st : MetaState, (lines.foldl metaStep st).summary = (lastTruthySummary lines).or st.summary := by
  induction lines with
  | nil => intro st; rfl
  | cons l rest ih =>
    intro st
    rw [List.foldl_cons, ih, metaStep_summary]
    cases h : lastTruthySummary rest with
    | some v => simp [lastTruthySummary, h, Option.or]
    | none =>
      simp only [lastTruthySummary, h, Option.or]
      cases l with
      | none => rfl
      | some d => rfl

lemma metaStep_first_isSome (st : MetaState) (l : LogLine) :
    (metaStep st l).firstMessageTime.isSome =
      (st.firstMessageTime.isSome || isQualifyingLine l) := by
  cases l with
  | none => simp [metaStep, isQualifyingLine]
  | some d =>
    simp only [metaStep, isQualifyingLine]
    by_cases hq : ((d.type == "user" || d.type == "assistant") && optStrTruthy d.timestamp) = true
    · rw [if_pos hq]
      have ht : (d.timestamp).isSome = true := by
        rw [Bool.and_eq_true] at hq
        cases hts : d.timestamp with
        | none => rw [hts] at hq; simp [optStrTruthy] at hq
        | some t => rfl
      rw [hq, Bool.or_true]
      split <;> (cases hst : st.firstMessageTime <;> simp [ht, hst])
    · rw [if_neg hq]
      rw [Bool.eq_false_iff.mpr hq, Bool.or_false]
      split <;> rfl

lemma metaStep_last_isSome (st : MetaState) (l : LogLine) :
    (metaStep st l).lastMessageTime.isSome =
      (st.lastMessageTime.isSome || isQualifyingLine l) := by
  cases l with
  | none => simp [metaStep, isQualifyingLine]
  | some d =>
    simp only [metaStep, isQualifyingLine]
    by_cases hq : ((d.type == "user" || d.type == "assistant") && optStrTruthy d.timestamp) = true
    · rw [if_pos hq]
      have ht : (d.timestamp).isSome = true := by
        rw [Bool.and_eq_true] at hq
        cases hts : d.timestamp with
        | none => rw [hts] at hq; simp [optStrTruthy] at hq
        | some t => rfl
      rw [hq, Bool.or_true]
      split <;> simp [ht]
    · rw [if_neg hq]
      rw [Bool.eq_false_iff.mpr hq, Bool.or_false]
      split <;> rfl

lemma foldl_metaStep_first_isSome (lines : List LogLine) :
    ∀ st : MetaState, (lines.foldl metaStep st).firstMessageTime.isSome =
      (st.firstMessageTime.isSome || lines.any isQualifyingLine) := by
  induction lines with
  | nil => intro st; simp
  | cons l rest ih =>
    intro st
    rw [List.foldl_cons, ih, metaStep_first_isSome, List.any_cons]
    rw [Bool.or_assoc]

lemma foldl_metaStep_last_isSome (lines : List LogLine) :
    ∀ st : MetaState, (lines.foldl metaStep st).lastMessageTime.isSome =
      (st.lastMessageTime.isSome || lines.any isQualifyingLine) := by
  induction lines with
  | nil => intro st; simp
  | cons l rest ih =>
    intro st
    rw [List.foldl_cons, ih, metaStep_last_isSome, List.any_cons]
    rw [Bool.or_assoc]

/-! ## C2 -/

/-- A session file with two summary lines ("A" then "B") and one
qualifying user line. -/
def twoSummaryDemo : List LogLine :=
  [ some { type := "summary", summary := some ("A") },
    some { type := "summary", summary := some ("B") },
    some { type := "user", uuid := some ("u1-x"), timestamp := some ("t1"),
           message := some { content := some (.str ("hello")) } } ]

/-- C2 counterexample: on a file whose two summary lines carry "A" then
"B", the parsed session summary is "B" (the last line), not "A" (the
first line) as the claim states. -/
theorem C2_counterexample :
    (parseSessionLines twoSummaryDemo ("i") ("p") ("n")).map Session.summary ≠
        some (firstTruthySummary twoSummaryDemo)
    ∧ firstTruthySummary twoSummaryDemo = some ("A")
    ∧ (parseSessionLines twoSummaryDemo ("i") ("p") ("n")).map Session.summary =
        some (some ("B")) :=
  ⟨by decide, by decide, by decide⟩

/-- C2 amended: when parsing session metadata, the Session summary equals
the summary value of the LAST summary-typed line with a truthy summary
field, in file order; earlier summary lines are overwritten. -/
theorem C2_summary_last_wins :
    ∀ (lines : List LogLine) (id pp pn : String) (s : Session),
      parseSessionLines lines id pp pn = some s → s.summary = lastTruthySummary lines := by
  intro lines id pp pn s h
  unfold parseSessionLines at h
  dsimp only at h
  rcases h1 : (lines.foldl metaStep {}).firstMessageTime with _ | f
  · rw [h1] at h; simp at h
  · rcases h2 : (lines.foldl metaStep {}).lastMessageTime with _ | g
    · rw [h1, h2] at h; simp at h
    · rw [h1, h2] at h
      simp only [Option.some.injEq] at h
      rw [← h]
      show (lines.foldl metaStep {}).summary = lastTruthySummary lines
      rw [foldl_metaStep_summary]
      cases lastTruthySummary lines <;> rfl

/-- Witness session for C2, computed from the demo file. -/
def twoSummaryDemoSession : Session :=
  (parseSessionLines twoSummaryDemo ("i") ("p") ("n")).getD
    { id := "", projectPath := "", projectName := "", summary := none,
      firstMessageTime := "", lastMessageTime := "" }

/-- Witness for C2 at the concrete two-summary file. -/
theorem C2_witness : twoSummaryDemoSession.summary = lastTruthySummary twoSummaryDemo :=
  C2_summary_last_wins twoSummaryDemo ("i") ("p") ("n") twoSummaryDemoSession (by decide)

/-! ## C3 -/

/-- C3: for every session file, `getSession` returns a non-null Session
iff at least one line parses with type user or assistant and a (truthy)
timestamp; a missing file yields null and an empty message list; and a
file with no qualifying line (for example one holding only a summary
line, or no valid JSON line) yields an empty message list from
`getMessages`. -/
theorem C3_getSession_iff_qualifying :
    (∀ (lines : List LogLine) (id pp pn : String),
        (parseSessionLines lines id pp pn).isSome = true ↔
          ∃ l ∈ lines, isQualifyingLine l = true)
    ∧ (∀ id pp pn : String, getSessionFile none id pp pn = none)
    ∧ getMessagesFile none = []
    ∧ (∀ lines : List LogLine,
        (∀ l ∈ lines, isQualifyingLine l = false) → getMessagesLines lines = []) := by
  refine ⟨?_, fun _ _ _ => rfl, rfl, ?_⟩
  · intro lines id pp pn
    have h1 := foldl_metaStep_first_isSome lines {}
    have h2 := foldl_metaStep_last_isSome lines {}
    simp only [Bool.false_or] at h1 h2
    rw [← List.any_eq_true]
    unfold parseSessionLines
    dsimp only
    cases hq : lines.any isQualifyingLine with
    | true =>
      rw [hq] at h1 h2
      obtain ⟨f, hf⟩ := Option.isSome_iff_exists.mp h1
      obtain ⟨g, hg⟩ := Option.isSome_iff_exists.mp h2
      rw [hf, hg]
      simp
    | false =>
      rw [hq] at h1
      have hf : (lines.foldl metaStep {}).firstMessageTime = none :=
        Option.not_isSome_iff_eq_none.mp (by rw [h1]; simp)
      rw [hf]
      simp
  · intro lines hall
    unfold getMessagesLines
    rw [List.filterMap_eq_nil_iff]
    intro l hl
    have hq := hall l hl
    cases l with
    | none => rfl
    | some d =>
      unfold messageOfLine
      dsimp only
      rw [if_neg]
      intro hC
      have hC2 : ((d.type == "user" || d.type == "assistant") && optStrTruthy d.timestamp)
          = true := by
        simp only [Bool.and_eq_true] at hC ⊢
        exact ⟨hC.1.1.1, hC.2⟩
      rw [isQualifyingLine] at hq
      rw [hq] at hC2
      exact Bool.false_ne_true hC2

/-- A session file holding only a summary line. -/
def onlySummaryDemo : List LogLine :=
  [some { type := "summary", summary := some ("Empty") }]

/-- Witness for C3: the summary-only file has no qualifying line, so its
message list is empty (and, through the main theorem, its session parse
is none). -/
theorem C3_witness : getMessagesLines onlySummaryDemo = [] :=
  C3_getSession_iff_qualifying.2.2.2 onlySummaryDemo (by decide)

/-! ## C4 -/

/-- C4: phase classification is a pure function of the tool-call list
with union semantics: a task whose single tool call is Bash with command
"npm test" is classified exactly `[verification]`; a task with no tool
calls is exactly `[immediate]`; a task containing both a Read and an
Edit call includes `investigation` and `implementation`; and a
singleton Task-tool call contributes `investigation` iff its
`input.subagent_type` is "Explore" and `planning` iff it is "Plan". -/
theorem C4_detectPhases_rules :
    detectPhases
        [{ name := "Bash", input := some { command := some ("npm test") }, timestamp := "t" }] =
      [TaskPhase.verification]
    ∧ detectPhases [] = [TaskPhase.immediate]
    ∧ (∀ (l : List ToolCall) (r e : ToolCall), r ∈ l → e ∈ l →
        r.name = "Read" → e.name = "Edit" →
          TaskPhase.investigation ∈ detectPhases l ∧ TaskPhase.implementation ∈ detectPhases l)
    ∧ (∀ t : ToolCall, t.name = "Task" →
        ((TaskPhase.investigation ∈ detectPhases [t] ↔ subagentOf t = some ("Explore"))
          ∧ (TaskPhase.planning ∈ detectPhases [t] ↔ subagentOf t = some ("Plan")))) := by
  refine ⟨by decide, by decide, ?_, ?_⟩
  · intro l r e hr he hrn hen
    have hinv : (l.any fun t =>
        (t.name == "Read" || t.name == "Glob" || t.name == "Grep" || t.name == "Task") &&
          (t.name != "Task" || subagentOf t == some ("Explore"))) = true := by
      rw [List.any_eq_true]
      exact ⟨r, hr, by simp [hrn]⟩
    have himpl : (l.any fun t => t.name == "Edit" || t.name == "Write") = true := by
      rw [List.any_eq_true]
      exact ⟨e, he, by simp [hen]⟩
    unfold detectPhases
    rw [hinv, himpl]
    constructor <;> simp
  · intro t ht
    unfold detectPhases
    simp only [List.any_cons, List.any_nil, Bool.or_false, ht]
    by_cases hE : subagentOf t = some ("Explore") <;> by_cases hP : subagentOf t = some ("Plan")
    · rw [hE] at hP
      simp at hP
    · simp [hE, hP]
    · simp [hE, hP]
    · simp [hE, hP]

/-- A Read tool call on a file. -/
def readDemoCall : ToolCall :=
  { name := "Read", input := some { file_path := some ("/a/b/c.ts") }, timestamp := "t" }

/-- An Edit tool call on a file. -/
def editDemoCall : ToolCall :=
  { name := "Edit", input := some { file_path := some ("/a/b/c.ts") }, timestamp := "t" }

/-- A Task tool call with subagent_type Explore. -/
def taskExploreDemoCall : ToolCall :=
  { name := "Task", input := some { subagent_type := some ("Explore") }, timestamp := "t" }

/-- Witness for C4 at concrete tool calls: a Read plus Edit task carries
investigation and implementation, and an Explore-subagent Task call
carries investigation. -/
theorem C4_witness :
    (TaskPhase.investigation ∈ detectPhases [readDemoCall, editDemoCall]
      ∧ TaskPhase.implementation ∈ detectPhases [readDemoCall, editDemoCall])
    ∧ (TaskPhase.investigation ∈ detectPhases [taskExploreDemoCall] ↔
        subagentOf taskExploreDemoCall = some ("Explore")) :=
  ⟨C4_detectPhases_rules.2.2.1 [readDemoCall, editDemoCall] readDemoCall editDemoCall
      (by decide) (by decide) rfl rfl,
   (C4_detectPhases_rules.2.2.2 taskExploreDemoCall rfl).1⟩

/-! ## C9 -/

lemma summaryLineStep_assistant_of_none (st : SummaryState) (l : LogLine)
    (hl : isAssistantLine l = true) (hc : st.currentTask = none) :
    summaryLineStep st l = st := by
  cases l with
  | none => simp [isAssistantLine] at hl
  | some d =>
    rw [isAssistantLine, beq_iff_eq] at hl
    unfold summaryLineStep
    dsimp only
    have huser : (d.type == "user" && contentTruthy (msgContent d) && optStrTruthy d.timestamp)
        = false := by
      rw [hl]
      rfl
    rw [huser]
    simp only [Bool.false_eq_true, if_false]
    split
    · rw [hc]
    · rfl

/-- C9: in `getSessionSummary`, assistant tool calls occurring before the
first qualifying user line are discarded entirely: a prefix consisting
of assistant lines contributes nothing to any task nor to the
session-level stats, so the summary of the file equals the summary of
the remainder. -/
theorem C9_pre_task_tool_calls_discarded :
    ∀ (pre rest : List LogLine) (sid : String),
      (∀ l ∈ pre, isAssistantLine l = true) →
      getSessionSummaryLines (pre ++ rest) sid = getSessionSummaryLines rest sid := by
  intro pre rest sid hpre
  unfold getSessionSummaryLines
  rw [List.foldl_append]
  have hfold : pre.foldl summaryLineStep {} = {} := by
    induction pre with
    | nil => rfl
    | cons l ls ih =>
      rw [List.foldl_cons]
      rw [summaryLineStep_assistant_of_none {} l (hpre l (by simp)) rfl]
      exact ih fun x hx => hpre x (by simp [hx])
  rw [hfold]

/-- An assistant line carrying a Read tool call. -/
def assistantReadDemoLine : LogLine :=
  some { type := "assistant", uuid := some ("a1"), timestamp := some ("t0"),
         message := some { content := some (.blocks
           [.toolUse "Read" (some { file_path := some ("/a/b/c.ts") })]) } }

/-- A qualifying user line starting a task. -/
def userTaskDemoLine : LogLine :=
  some { type := "user", uuid := some ("u1"), timestamp := some ("t1"),
         message := some { content := some (.str ("do it")) } }

/-- Witness for C9 at a concrete file: an assistant tool-call line before
the first qualifying user line changes nothing. -/
theorem C9_witness :
    getSessionSummaryLines ([assistantReadDemoLine] ++ [userTaskDemoLine, assistantReadDemoLine])
        ("s") =
      getSessionSummaryLines [userTaskDemoLine, assistantReadDemoLine] ("s") :=
  C9_pre_task_tool_calls_discarded [assistantReadDemoLine] [userTaskDemoLine, assistantReadDemoLine]
    ("s") (by decide)

/-! ## Search counting lemmas (C5) -/

/-- Occurrence count contributed by one line, phrased on the lowered
search term directly. -/
def lineOccTerm (term : List Char) (l : LogLine) : Nat :=
  match l with
  | none => 0
  | some d =>
    if (d.type == "user" || d.type == "assistant") && contentTruthy (msgContent d)
        && optStrTruthy d.timestamp then
      countOcc term (strLower (extractTextContent ((msgContent d).getD (.str ("" : String))))).data
    else 0

lemma lineOccCount_eq_term (q : SearchQuery) (l : LogLine) :
    lineOccCount q l = lineOccTerm ((strLower q.query).data) l := rfl

lemma findIdx_ne_nil_of_some {needle hay : List Char} {j : Nat} (hne : needle ≠ [])
    (h : findIdx needle hay = some j) : hay ≠ [] := by
  intro hnil
  subst hnil
  cases needle with
  | nil => exact hne rfl
  | cons p ps => simp [findIdx] at h

lemma countOcc_nil {needle : List Char} (hne : needle ≠ []) : countOcc needle [] = 0 := by
  cases needle with
  | nil => exact absurd rfl hne
  | cons p ps => rfl

lemma countOccAux_fuel {needle : List Char} (hne : needle ≠ []) :
    ∀ (f1 : Nat) (hay : List Char) (f2 : Nat), hay.length < f1 → hay.length < f2 →
      countOccAux f1 needle hay = countOccAux f2 needle hay := by
  intro f1
  induction f1 with
  | zero => intro hay f2 h1 _; omega
  | succ n ih =>
    intro hay f2 h1 h2
    cases f2 with
    | zero => omega
    | succ m =>
      unfold countOccAux
      cases hf : findIdx needle hay with
      | none => rfl
      | some j =>
        have hhay : hay ≠ [] := findIdx_ne_nil_of_some hne hf
        have hlen : 0 < hay.length := List.length_pos.mpr hhay
        have hterm : 0 < needle.length := List.length_pos.mpr hne
        have hdrop : (hay.drop (j + needle.length)).length < n := by
          rw [List.length_drop]
          omega
        have hdrop2 : (hay.drop (j + needle.length)).length < m := by
          rw [List.length_drop]
          omega
        dsimp only
        rw [ih (hay.drop (j + needle.length)) m hdrop hdrop2]

lemma countOcc_unfold (needle hay : List Char) (hne : needle ≠ []) :
    countOcc needle hay =
      match findIdx needle hay with
      | none => 0
      | some j => 1 + countOcc needle (hay.drop (j + needle.length)) := by
  unfold countOcc
  conv_lhs => rw [countOccAux]
  cases hf : findIdx needle hay with
  | none => rfl
  | some j =>
    have hhay : hay ≠ [] := findIdx_ne_nil_of_some hne hf
    have hlen : 0 < hay.length := List.length_pos.mpr hhay
    have hterm : 0 < needle.length := List.length_pos.mpr hne
    have hb1 : (hay.drop (j + needle.length)).length < hay.length := by
      rw [List.length_drop]
      omega
    dsimp only
    rw [countOccAux_fuel hne hay.length (hay.drop (j + needle.length))
      ((hay.drop (j + needle.length)).length + 1) (by omega) (by omega)]

lemma length_collectOcc {term : List Char} (textL : List Char) (hne : term ≠ []) :
    ∀ (cap pos : Nat),
      (collectOcc term textL pos cap).length = min cap (countOcc term (textL.drop pos)) := by
  intro cap
  induction cap with
  | zero => intro pos; simp [collectOcc]
  | succ n ih =>
    intro pos
    unfold collectOcc
    by_cases hp : pos < textL.length
    · rw [if_pos hp]
      cases hf : findIdx term (textL.drop pos) with
      | none =>
        have hz : countOcc term (textL.drop pos) = 0 := by
          rw [countOcc_unfold _ _ hne, hf]
        simp [hz]
      | some j =>
        have harith : pos + (j + term.length) = pos + j + term.length := by omega
        have hcount : countOcc term (textL.drop pos) =
            1 + countOcc term (textL.drop (pos + j + term.length)) := by
          rw [countOcc_unfold _ _ hne, hf]
          dsimp only
          rw [List.drop_drop, harith]
        simp only [List.length_cons, ih (pos + j + term.length)]
        rw [hcount]
        omega
    · rw [if_neg hp]
      have hdl : textL.drop pos = [] := List.drop_eq_nil_of_le (by omega)
      rw [hdl, countOcc_nil hne]
      simp

/-! ## Scan-state lemmas (C5 / C6 / C10) -/

lemma trackTimestamp_matchList (st : ScanState) (d : RawLine) :
    (trackTimestamp st d).matchList = st.matchList := by
  unfold trackTimestamp
  split <;> rfl

lemma trackToolFilter_matchList (tf : Option String) (st : ScanState) (d : RawLine) :
    (trackToolFilter tf st d).matchList = st.matchList := by
  unfold trackToolFilter
  split
  · split <;> rfl
  · rfl

lemma trackTimestamp_ts_of_ne (st : ScanState) (d : RawLine)
    (h : st.sessionTimestamp ≠ "") : (trackTimestamp st d).sessionTimestamp = st.sessionTimestamp := by
  unfold trackTimestamp
  rw [if_neg]
  intro hc
  rw [Bool.and_eq_true, beq_iff_eq] at hc
  exact h hc.2

lemma trackToolFilter_ts (tf : Option String) (st : ScanState) (d : RawLine) :
    (trackToolFilter tf st d).sessionTimestamp = st.sessionTimestamp := by
  unfold trackToolFilter
  split
  · split <;> rfl
  · rfl

lemma collectLineMatches_ts (term : List Char) (qlen idx : Nat) (st : ScanState) (d : RawLine) :
    (collectLineMatches term qlen idx st d).sessionTimestamp = st.sessionTimestamp := by
  unfold collectLineMatches
  split
  · dsimp only
    split <;> rfl
  · rfl

lemma collectLineMatches_matchList_length {term : List Char} (hne : term ≠ [])
    (qlen idx : Nat) (st : ScanState) (d : RawLine)
    (hcap : st.matchList.length ≤ MAX_MATCHES_PER_SESSION) :
    (collectLineMatches term qlen idx st d).matchList.length =
      min MAX_MATCHES_PER_SESSION (st.matchList.length + lineOccTerm term (some d)) := by
  unfold collectLineMatches lineOccTerm
  split
  · rename_i hcond
    dsimp only
    split
    · rename_i htext
      rw [beq_iff_eq] at htext
      have : (strLower (extractTextContent ((msgContent d).getD (.str ("" : String))))).data
          = [] := by
        rw [htext]
        rfl
      rw [this, countOcc_nil hne]
      omega
    · simp only [List.length_append, List.length_map]
      rw [length_collectOcc _ hne]
      simp only [List.drop_zero]
      omega
  · rename_i hcond
    dsimp only
    rw [if_neg hcond]
    omega

lemma collectLineMatches_no_ts (term : List Char) (qlen idx : Nat) (st : ScanState)
    (d : RawLine) (h : optStrTruthy d.timestamp = false) :
    collectLineMatches term qlen idx st d = st := by
  unfold collectLineMatches
  rw [if_neg]
  simp [h]

lemma searchLineStep_matchList_length {term : List Char} (hne : term ≠ [])
    (qlen : Nat) (tf : Option String) (idx : Nat) (st : ScanState) (l : LogLine)
    (hcap : st.matchList.length ≤ MAX_MATCHES_PER_SESSION) :
    (searchLineStep term qlen tf idx st l).matchList.length =
      min MAX_MATCHES_PER_SESSION (st.matchList.length + lineOccTerm term l) := by
  cases l with
  | none =>
    simp [searchLineStep, lineOccTerm]
    omega
  | some d =>
    unfold searchLineStep
    rw [collectLineMatches_matchList_length hne qlen idx _ d
      (by rw [trackToolFilter_matchList, trackTimestamp_matchList]; exact hcap)]
    rw [trackToolFilter_matchList, trackTimestamp_matchList]

lemma searchScanLines_matchList_length {term : List Char} (hne : term ≠ [])
    (qlen : Nat) (tf : Option String) :
    ∀ (lines : List LogLine) (idx : Nat) (st : ScanState),
      st.matchList.length ≤ MAX_MATCHES_PER_SESSION →
      (searchScanLines term qlen tf lines idx st).matchList.length =
        min MAX_MATCHES_PER_SESSION
          (st.matchList.length + (lines.map (lineOccTerm term)).sum) := by
  intro lines
  induction lines with
  | nil =>
    intro idx st h
    simp [searchScanLines]
    omega
  | cons l rest ih =>
    intro idx st h
    unfold searchScanLines
    by_cases hbr : MAX_MATCHES_PER_SESSION ≤ st.matchList.length
    · rw [if_pos hbr]
      have hEq : st.matchList.length = MAX_MATCHES_PER_SESSION := le_antisymm h hbr
      rw [hEq]
      omega
    · rw [if_neg hbr]
      have hstep := searchLineStep_matchList_length hne qlen tf idx st l h
      have hle : (searchLineStep term qlen tf idx st l).matchList.length ≤
          MAX_MATCHES_PER_SESSION := by
        rw [hstep]
        omega
      rw [ih (idx + 1) _ hle, hstep]
      simp only [List.map_cons, List.sum_cons]
      omega

/-! ## Sortedness of search results (C5) -/

lemma mem_insertByMatchesDesc {y r : SearchResult} :
    ∀ {l : List SearchResult}, y ∈ insertByMatchesDesc r l → y = r ∨ y ∈ l := by
  intro l
  induction l with
  | nil =>
    intro h
    simp [insertByMatchesDesc] at h
    exact Or.inl h
  | cons x xs ih =>
    intro h
    unfold insertByMatchesDesc at h
    split at h
    · rcases List.mem_cons.mp h with h1 | h1
      · exact Or.inl h1
      · exact Or.inr h1
    · rcases List.mem_cons.mp h with h1 | h1
      · exact Or.inr (List.mem_cons.mpr (Or.inl h1))
      · rcases ih h1 with h2 | h2
        · exact Or.inl h2
        · exact Or.inr (List.mem_cons.mpr (Or.inr h2))

lemma pairwise_insertByMatchesDesc {r : SearchResult} :
    ∀ {l : List SearchResult},
      l.Pairwise (fun a b => b.totalMatches ≤ a.totalMatches) →
      (insertByMatchesDesc r l).Pairwise (fun a b => b.totalMatches ≤ a.totalMatches) := by
  intro l
  induction l with
  | nil => intro _; simp [insertByMatchesDesc]
  | cons x xs ih =>
    intro h
    rw [List.pairwise_cons] at h
    unfold insertByMatchesDesc
    split
    · rename_i hle
      rw [List.pairwise_cons]
      constructor
      · intro y hy
        rcases List.mem_cons.mp hy with h1 | h1
        · rw [h1]; exact hle
        · exact le_trans (h.1 y h1) hle
      · rw [List.pairwise_cons]
        exact h
    · rename_i hgt
      rw [List.pairwise_cons]
      constructor
      · intro y hy
        rcases mem_insertByMatchesDesc hy with h1 | h1
        · rw [h1]; omega
        · exact h.1 y h1
      · exact ih h.2

lemma pairwise_sortByMatchesDesc :
    ∀ l : List SearchResult,
      (sortByMatchesDesc l).Pairwise (fun a b => b.totalMatches ≤ a.totalMatches) := by
  intro l
  induction l with
  | nil => simp [sortByMatchesDesc]
  | cons r rest ih => exact pairwise_insertByMatchesDesc ih

/-! ## Anchor-timestamp lemmas (C6 / C10) -/

lemma searchLineStep_ts_of_ne (term : List Char) (qlen : Nat) (tf : Option String)
    (idx : Nat) (st : ScanState) (l : LogLine) (h : st.sessionTimestamp ≠ "") :
    (searchLineStep term qlen tf idx st l).sessionTimestamp = st.sessionTimestamp := by
  cases l with
  | none => rfl
  | some d =>
    unfold searchLineStep
    rw [collectLineMatches_ts, trackToolFilter_ts, trackTimestamp_ts_of_ne _ _ h]

lemma searchScanLines_ts_of_ne (term : List Char) (qlen : Nat) (tf : Option String) :
    ∀ (lines : List LogLine) (idx : Nat) (st : ScanState), st.sessionTimestamp ≠ "" →
      (searchScanLines term qlen tf lines idx st).sessionTimestamp = st.sessionTimestamp := by
  intro lines
  induction lines with
  | nil => intro idx st h; rfl
  | cons l rest ih =>
    intro idx st h
    unfold searchScanLines
    split
    · rfl
    · rw [ih (idx + 1) _ (by rw [searchLineStep_ts_of_ne _ _ _ _ _ _ h]; exact h)]
      exact searchLineStep_ts_of_ne _ _ _ _ _ _ h

lemma searchScanLines_ts_anchor (term : List Char) (qlen : Nat) (tf : Option String) :
    ∀ (lines : List LogLine) (idx : Nat) (st : ScanState),
      st.sessionTimestamp = "" → st.matchList = [] →
      (searchScanLines term qlen tf lines idx st).sessionTimestamp = anchorTimestamp lines := by
  intro lines
  induction lines with
  | nil => intro idx st h _; exact h
  | cons l rest ih =>
    intro idx st hts hml
    unfold searchScanLines
    rw [if_neg (by rw [hml]; simp [MAX_MATCHES_PER_SESSION])]
    cases l with
    | none =>
      show (searchScanLines term qlen tf rest (idx + 1) st).sessionTimestamp =
        anchorTimestamp (none :: rest)
      rw [ih (idx + 1) st hts hml]
      rfl
    | some d =>
      show (searchScanLines term qlen tf rest (idx + 1)
          (searchLineStep term qlen tf idx st (some d))).sessionTimestamp =
        anchorTimestamp (some d :: rest)
      by_cases htr : optStrTruthy d.timestamp = true
      · have hset : (searchLineStep term qlen tf idx st (some d)).sessionTimestamp =
            (d.timestamp).getD ("") := by
          unfold searchLineStep
          dsimp only
          rw [collectLineMatches_ts, trackToolFilter_ts]
          unfold trackTimestamp
          rw [if_pos (by rw [htr, hts]; rfl)]
        have hne2 : (d.timestamp).getD ("") ≠ "" := by
          cases hdt : d.timestamp with
          | none => rw [hdt] at htr; simp [optStrTruthy] at htr
          | some t =>
            rw [hdt] at htr
            rw [optStrTruthy] at htr
            simpa using htr
        rw [searchScanLines_ts_of_ne term qlen tf rest (idx + 1) _ (by rw [hset]; exact hne2)]
        rw [hset]
        unfold anchorTimestamp
        rw [if_pos htr]
      · have hstep : searchLineStep term qlen tf idx st (some d) =
            trackToolFilter tf st d := by
          unfold searchLineStep
          dsimp only
          rw [collectLineMatches_no_ts _ _ _ _ _ (Bool.eq_false_iff.mpr htr)]
          unfold trackTimestamp
          rw [if_neg (by simp [Bool.eq_false_iff.mpr htr])]
        rw [hstep]
        have h1 : (trackToolFilter tf st d).sessionTimestamp = "" := by
          rw [trackToolFilter_ts]; exact hts
        have h2 : (trackToolFilter tf st d).matchList = [] := by
          rw [trackToolFilter_matchList]; exact hml
        rw [ih (idx + 1) _ h1 h2]
        unfold anchorTimestamp
        rw [if_neg (by simp [Bool.eq_false_iff.mpr htr])]
        cases rest with
        | nil => rfl
        | cons l2 r2 => cases l2 <;> rfl

lemma searchScanLines_matchList_no_ts (term : List Char) (qlen : Nat) (tf : Option String) :
    ∀ (lines : List LogLine) (idx : Nat) (st : ScanState),
      (∀ l ∈ lines, lineHasTruthyTs l = false) →
      (searchScanLines term qlen tf lines idx st).matchList = st.matchList := by
  intro lines
  induction lines with
  | nil => intro idx st _; rfl
  | cons l rest ih =>
    intro idx st hall
    unfold searchScanLines
    split
    · rfl
    · have hstep : (searchLineStep term qlen tf idx st l).matchList = st.matchList := by
        cases l with
        | none => rfl
        | some d =>
          unfold searchLineStep
          dsimp only
          have := hall (some d) (by simp)
          rw [lineHasTruthyTs] at this
          rw [collectLineMatches_no_ts _ _ _ _ _ this, trackToolFilter_matchList,
            trackTimestamp_matchList]
      rw [ih (idx + 1) _ fun x hx => hall x (by simp [hx]), hstep]

/-! ## Date-filter lemmas (C6 / C10) -/

lemma dateFilterOk_no_dates (toTime : String → Int) (q : SearchQuery) (ts : String) :
    dateFilterOk toTime { q with dateFrom := none, dateTo := none } ts = true := by
  unfold dateFilterOk
  rw [if_neg]
  simp

lemma dateFilterOk_empty_ts (toTime : String → Int) (q : SearchQuery) :
    dateFilterOk toTime q "" = true := by
  unfold dateFilterOk
  rw [if_neg]
  simp

lemma dateFilterOk_true_iff (toTime : String → Int) (q : SearchQuery) (ts : String)
    (dt : Int) (hts : ts ≠ "") (hdt : q.dateTo = some dt) :
    dateFilterOk toTime q ts = true ↔
      (toTime ts ≤ dt * msPerDay + (msPerDay - 1) ∧
        ∀ df : Int, q.dateFrom = some df → df * msPerDay ≤ toTime ts) := by
  unfold dateFilterOk
  rw [if_pos (by simp [hts, hdt])]
  rw [hdt]
  cases hdf : q.dateFrom with
  | none => simp [Int.not_lt]
  | some df =>
    simp only [Bool.and_eq_true, Bool.not_eq_true', decide_eq_false_iff_not, Int.not_lt]
    constructor
    · rintro ⟨h1, h2⟩
      exact ⟨h2, fun x hx => by rw [Option.some.injEq] at hx; rw [← hx]; exact h1⟩
    · rintro ⟨h1, h2⟩
      exact ⟨h2 df rfl, h1⟩

lemma string_data_ne_nil {s : String} (h : s ≠ "") : s.data ≠ [] := by
  intro hd
  apply h
  cases s with
  | mk l =>
    simp only at hd
    subst hd
    rfl

/-! ## Demo sessions for the search claims -/

/-- A user line with a timestamp and plain text content. -/
def userLineDemo (ts txt : String) : LogLine :=
  some { type := "user", uuid := some ("u1-x"), timestamp := some ts,
         message := some { content := some (.str txt) } }

/-- A user line with text content but no timestamp. -/
def userNoTsLineDemo (txt : String) : LogLine :=
  some { type := "user", uuid := some ("u2-x"),
         message := some { content := some (.str txt) } }

/-- The query "bug" with no filters. -/
def qBug : SearchQuery := { query := "bug" }

/-- A trivial timestamp parse function for date-free demos. -/
def constZeroTime : String → Int := fun _ => 0

/-- One timestamped user line containing the query twice and one
timestamp-free user line containing it once. -/
def demoMixedTsLines : List LogLine :=
  [userLineDemo ("t1") ("bugbug"), userNoTsLineDemo ("bug")]

/-- Two timestamped user lines: the query twice (case-varied) in one
message and once in another. -/
def demoThreeHitLines : List LogLine :=
  [userLineDemo ("t1") ("a Bug and a bUg here"), userLineDemo ("t2") ("one bug")]

/-- A session whose only line has no timestamp but matching text. -/
def demoNoTsLines : List LogLine := [userNoTsLineDemo ("bug")]

/-! ## C5 -/

/-- C5 counterexample: on a session holding a timestamped user line with
two occurrences of the query and a timestamp-free user line with one
more, the scan reports totalMatches = 2, not the 3 occurrences counted
over all user and assistant lines as the claim states. -/
theorem C5_counterexample :
    (scanSessionLines constZeroTime qBug ("p") ("s") demoMixedTsLines).map
        SearchResult.totalMatches ≠
      some (min MAX_MATCHES_PER_SESSION ((demoMixedTsLines.map (lineOccCountClaim qBug)).sum))
    ∧ (demoMixedTsLines.map (lineOccCountClaim qBug)).sum = 3
    ∧ (scanSessionLines constZeroTime qBug ("p") ("s") demoMixedTsLines).map
        SearchResult.totalMatches = some 2 :=
  ⟨by decide, by decide, by decide⟩

/-- C5 amended: for a non-blank query, a returned per-session result has
totalMatches equal to the total number of non-overlapping
case-insensitive occurrences of the query across the extracted text of
the user and assistant lines that carry a message content AND a
timestamp, truncated at MAX_MATCHES_PER_SESSION = 10; the result list is
sorted by totalMatches descending; and the concrete two-plus-one
occurrence session yields totalMatches = 3. -/
theorem C5_totalMatches_characterization :
    (∀ (toTime : String → Int) (q : SearchQuery) (pn sid : String) (lines : List LogLine)
        (r : SearchResult), q.query ≠ "" →
        scanSessionLines toTime q pn sid lines = some r →
        r.totalMatches = min MAX_MATCHES_PER_SESSION ((lines.map (lineOccCount q)).sum))
    ∧ (∀ (toTime : String → Int) (q : SearchQuery)
        (sessions : List (String × String × List LogLine)),
        (searchSessionsF toTime q sessions).Pairwise
          (fun a b => b.totalMatches ≤ a.totalMatches))
    ∧ (searchSessionsF constZeroTime qBug [(("p"), ("s"), demoThreeHitLines)]).map
        SearchResult.totalMatches = [3] := by
  refine ⟨?_, ?_, by decide⟩
  · intro toTime q pn sid lines r hq h
    have hterm : ((strLower q.query).data) ≠ [] := by
      intro hd
      have hmapnil : q.query.data.map Char.toLower = [] := hd
      exact string_data_ne_nil hq (List.map_eq_nil_iff.mp hmapnil)
    unfold scanSessionLines at h
    dsimp only at h
    split at h
    · simp at h
    · split at h
      · simp at h
      · split at h
        · rw [Option.some.injEq] at h
          subst h
          have hmap : lines.map (lineOccCount q) =
              lines.map (lineOccTerm ((strLower q.query).data)) :=
            List.map_congr_left fun l _ => lineOccCount_eq_term q l
          rw [hmap]
          show (searchScanLines (strLower q.query).data q.query.length q.toolFilter lines 0
            (initialScanState q)).matchList.length = _
          rw [searchScanLines_matchList_length hterm q.query.length q.toolFilter lines 0 _
            (Nat.zero_le _)]
          simp [initialScanState]
        · simp at h
  · intro toTime q sessions
    unfold searchSessionsF
    split
    · simp
    · exact pairwise_sortByMatchesDesc _

/-- The scan result of the three-occurrence demo session. -/
def demoThreeHitResult : SearchResult :=
  (scanSessionLines constZeroTime qBug ("p") ("s") demoThreeHitLines).getD
    { sessionId := "", projectName := "", sessionTimestamp := "", matchList := [],
      totalMatches := 0 }

/-- Witness for C5 at the concrete demo session. -/
theorem C5_witness :
    qBug.query ≠ "" ∧
      demoThreeHitResult.totalMatches =
        min MAX_MATCHES_PER_SESSION ((demoThreeHitLines.map (lineOccCount qBug)).sum) :=
  ⟨by decide,
   C5_totalMatches_characterization.1 constZeroTime qBug ("p") ("s") demoThreeHitLines
     demoThreeHitResult (by decide) (by rfl)⟩

/-! ## C6 -/

/-- C6: the search date filter is applied to the session anchor
timestamp (first truthy timestamp on any line) with inclusive bounds:
an included result carries the anchor as its sessionTimestamp and, when
the anchor is non-empty, satisfies dateFrom midnight ≤ anchor ≤ dateTo
23:59:59.999; an anchor strictly past the dateTo end instant makes the
session dropped entirely (even with text matches); and an anchor inside
the bounds makes the scan agree with the unfiltered scan. -/
theorem C6_date_filter_boundary :
    ∀ (toTime : String → Int) (q : SearchQuery) (pn sid : String) (lines : List LogLine)
      (dt : Int), q.dateTo = some dt →
      ((∀ r : SearchResult, scanSessionLines toTime q pn sid lines = some r →
          r.sessionTimestamp = anchorTimestamp lines ∧
            (anchorTimestamp lines ≠ "" →
              toTime (anchorTimestamp lines) ≤ dt * msPerDay + (msPerDay - 1) ∧
                ∀ df : Int, q.dateFrom = some df →
                  df * msPerDay ≤ toTime (anchorTimestamp lines)))
        ∧ (anchorTimestamp lines ≠ "" →
            dt * msPerDay + (msPerDay - 1) < toTime (anchorTimestamp lines) →
            scanSessionLines toTime q pn sid lines = none)
        ∧ (anchorTimestamp lines ≠ "" →
            toTime (anchorTimestamp lines) ≤ dt * msPerDay + (msPerDay - 1) →
            (∀ df : Int, q.dateFrom = some df →
              df * msPerDay ≤ toTime (anchorTimestamp lines)) →
            scanSessionLines toTime q pn sid lines =
              scanSessionLines toTime
                { q with dateFrom := none, dateTo := none } pn sid lines)) := by
  intro toTime q pn sid lines dt hdt
  have hts_anchor : (searchScanLines (strLower q.query).data q.query.length q.toolFilter lines 0
      (initialScanState q)).sessionTimestamp = anchorTimestamp lines :=
    searchScanLines_ts_anchor _ _ _ lines 0 _ rfl rfl
  refine ⟨?_, ?_, ?_⟩
  · intro r h
    unfold scanSessionLines at h
    dsimp only at h
    rw [hts_anchor] at h
    split at h
    · simp at h
    · rename_i hcond
      have hdo : dateFilterOk toTime q (anchorTimestamp lines) = true := by
        revert hcond
        cases dateFilterOk toTime q (anchorTimestamp lines) <;> simp
      split at h
      · simp at h
      · split at h
        · rw [Option.some.injEq] at h
          subst h
          exact ⟨rfl, fun hanch =>
            (dateFilterOk_true_iff toTime q (anchorTimestamp lines) dt hanch hdt).mp hdo⟩
        · simp at h
  · intro hanch hlt
    unfold scanSessionLines
    dsimp only
    rw [hts_anchor]
    have hfo : dateFilterOk toTime q (anchorTimestamp lines) = false := by
      by_contra hc
      rw [Bool.not_eq_false] at hc
      have := (dateFilterOk_true_iff toTime q (anchorTimestamp lines) dt hanch hdt).mp hc
      omega
    rw [hfo]
    rfl
  · intro hanch hle hfrom
    unfold scanSessionLines
    dsimp only
    rw [show initialScanState { q with dateFrom := none, dateTo := none } =
      initialScanState q from rfl]
    rw [hts_anchor]
    have h1 : dateFilterOk toTime q (anchorTimestamp lines) = true :=
      (dateFilterOk_true_iff toTime q (anchorTimestamp lines) dt hanch hdt).mpr ⟨hle, hfrom⟩
    rw [h1, dateFilterOk_no_dates]

/-- A query for "bug" with dateTo at day 0. -/
def qDateToDemo : SearchQuery := { query := "bug", dateTo := some 0 }

/-- A timestamp parse placing the demo anchor exactly at day 0,
23:59:59.999. -/
def toTimeBoundaryDemo : String → Int := fun s => if s == "t1" then 86399999 else 0

/-- A timestamp parse placing the demo anchor 1 millisecond past the
dateTo end of day. -/
def toTimeOverDemo : String → Int := fun s => if s == "t1" then 86400000 else 0

/-- Witness for C6 at the demo session: one millisecond past the end of
the dateTo day drops the session; exactly at 23:59:59.999 the date
filter is inert. -/
theorem C6_witness :
    scanSessionLines toTimeOverDemo qDateToDemo ("p") ("s") demoThreeHitLines = none ∧
      scanSessionLines toTimeBoundaryDemo qDateToDemo ("p") ("s") demoThreeHitLines =
        scanSessionLines toTimeBoundaryDemo
          { qDateToDemo with dateFrom := none, dateTo := none } ("p") ("s")
          demoThreeHitLines :=
  ⟨(C6_date_filter_boundary toTimeOverDemo qDateToDemo ("p") ("s") demoThreeHitLines 0
      rfl).2.1 (by decide) (by decide),
   (C6_date_filter_boundary toTimeBoundaryDemo qDateToDemo ("p") ("s") demoThreeHitLines 0
      rfl).2.2 (by decide) (by decide) (fun df h => Option.noConfusion h)⟩

/-! ## C10 -/

/-- C10 counterexample: a session whose only (user) line has matching
text but no timestamp is NOT included in the search results, although
the claim asserts it would be; the query does occur once in the text of
that user line. -/
theorem C10_counterexample :
    searchSessionsF constZeroTime qBug [(("p"), ("s"), demoNoTsLines)] = []
    ∧ (demoNoTsLines.map (lineOccCountClaim qBug)).sum = 1 :=
  ⟨by decide, by decide⟩

/-- C10 amended: a session file none of whose parseable lines carries a
truthy timestamp keeps an empty anchor, and the date-range check is
indeed skipped for an empty anchor (the scan agrees with the unfiltered
scan); but such a file can never produce a search match, because match
collection requires the line to carry a timestamp, so the session is
never included in the results. -/
theorem C10_no_timestamp_sessions :
    (∀ (toTime : String → Int) (q : SearchQuery) (pn sid : String) (lines : List LogLine),
        (∀ l ∈ lines, lineHasTruthyTs l = false) →
        scanSessionLines toTime q pn sid lines = none)
    ∧ (∀ (toTime : String → Int) (q : SearchQuery) (pn sid : String) (lines : List LogLine),
        anchorTimestamp lines = "" →
        scanSessionLines toTime q pn sid lines =
          scanSessionLines toTime { q with dateFrom := none, dateTo := none } pn sid lines) := by
  constructor
  · intro toTime q pn sid lines hall
    unfold scanSessionLines
    dsimp only
    have hml : (searchScanLines (strLower q.query).data q.query.length q.toolFilter lines 0
        (initialScanState q)).matchList = [] := by
      rw [searchScanLines_matchList_no_ts _ _ _ lines 0 _ hall]
      rfl
    rw [hml]
    split
    · rfl
    · split
      · rfl
      · rw [if_neg (by simp)]
  · intro toTime q pn sid lines hanch
    have hts_anchor : (searchScanLines (strLower q.query).data q.query.length q.toolFilter
        lines 0 (initialScanState q)).sessionTimestamp = anchorTimestamp lines :=
      searchScanLines_ts_anchor _ _ _ lines 0 _ rfl rfl
    unfold scanSessionLines
    dsimp only
    rw [show initialScanState { q with dateFrom := none, dateTo := none } =
      initialScanState q from rfl]
    rw [hts_anchor, hanch]
    simp only [dateFilterOk_empty_ts]

/-- Witness for C10 at the timestamp-free demo session. -/
theorem C10_witness :
    scanSessionLines constZeroTime qBug ("p") ("s") demoNoTsLines = none ∧
      scanSessionLines constZeroTime qBug ("p") ("s") demoNoTsLines =
        scanSessionLines constZeroTime { qBug with dateFrom := none, dateTo := none }
          ("p") ("s") demoNoTsLines :=
  ⟨C10_no_timestamp_sessions.1 constZeroTime qBug ("p") ("s") demoNoTsLines (by decide),
   C10_no_timestamp_sessions.2 constZeroTime qBug ("p") ("s") demoNoTsLines (by decide)⟩

/-! ## Insertion-sort lemmas for insight details (C7) -/

lemma mem_insertByScoreAsc {y d : InsightDetail} :
    ∀ {l : List InsightDetail}, y ∈ insertByScoreAsc d l → y = d ∨ y ∈ l := by
  intro l
  induction l with
  | nil =>
    intro h
    simp [insertByScoreAsc] at h
    exact Or.inl h
  | cons x xs ih =>
    intro h
    unfold insertByScoreAsc at h
    split at h
    · rcases List.mem_cons.mp h with h1 | h1
      · exact Or.inl h1
      · exact Or.inr h1
    · rcases List.mem_cons.mp h with h1 | h1
      · exact Or.inr (List.mem_cons.mpr (Or.inl h1))
      · rcases ih h1 with h2 | h2
        · exact Or.inl h2
        · exact Or.inr (List.mem_cons.mpr (Or.inr h2))

lemma pairwise_insertByScoreAsc {d : InsightDetail} :
    ∀ {l : List InsightDetail},
      l.Pairwise (fun a b => a.score ≤ b.score) →
      (insertByScoreAsc d l).Pairwise (fun a b => a.score ≤ b.score) := by
  intro l
  induction l with
  | nil => intro _; simp [insertByScoreAsc]
  | cons x xs ih =>
    intro h
    rw [List.pairwise_cons] at h
    unfold insertByScoreAsc
    split
    · rename_i hle
      rw [List.pairwise_cons]
      constructor
      · intro y hy
        rcases List.mem_cons.mp hy with h1 | h1
        · rw [h1]; exact hle
        · exact le_trans hle (h.1 y h1)
      · rw [List.pairwise_cons]
        exact h
    · rename_i hgt
      rw [List.pairwise_cons]
      constructor
      · intro y hy
        rcases mem_insertByScoreAsc hy with h1 | h1
        · rw [h1]; omega
        · exact h.1 y h1
      · exact ih h.2

lemma pairwise_sortByScoreAsc :
    ∀ l : List InsightDetail,
      (sortByScoreAsc l).Pairwise (fun a b => a.score ≤ b.score) := by
  intro l
  induction l with
  | nil => simp [sortByScoreAsc]
  | cons d rest ih => exact pairwise_insertByScoreAsc ih

lemma insertByScoreAsc_front (d : InsightDetail) :
    ∀ l : List InsightDetail, (∀ y ∈ l, d.score ≤ y.score) →
      insertByScoreAsc d l = d :: l := by
  intro l hall
  cases l with
  | nil => rfl
  | cons x xs =>
    unfold insertByScoreAsc
    rw [if_pos (hall x (by simp))]

lemma insertByScoreAsc_nil (d : InsightDetail) : insertByScoreAsc d [] = [d] := rfl

lemma insertByScoreAsc_cons (d x : InsightDetail) (xs : List InsightDetail) :
    insertByScoreAsc d (x :: xs) =
      if d.score ≤ x.score then d :: x :: xs else x :: insertByScoreAsc d xs := rfl

lemma filter_insertByScoreAsc (d : InsightDetail) :
    ∀ l : List InsightDetail, l.Pairwise (fun a b => a.score ≤ b.score) →
      (insertByScoreAsc d l).filter (fun x => x.score < 60) =
        if d.score < 60 then insertByScoreAsc d (l.filter (fun x => x.score < 60))
        else l.filter (fun x => x.score < 60) := by
  intro l
  induction l with
  | nil =>
    intro _
    by_cases hpd : d.score < 60 <;>
      simp [insertByScoreAsc_nil, List.filter_cons, List.filter_nil, hpd]
  | cons x xs ih =>
    intro hl
    rw [List.pairwise_cons] at hl
    rw [insertByScoreAsc_cons]
    by_cases hdx : d.score ≤ x.score
    · rw [if_pos hdx]
      by_cases hpd : d.score < 60
      · rw [if_pos hpd]
        have hfront : insertByScoreAsc d ((x :: xs).filter (fun y => y.score < 60)) =
            d :: (x :: xs).filter (fun y => y.score < 60) := by
          apply insertByScoreAsc_front
          intro y hy
          rcases List.mem_cons.mp (List.mem_of_mem_filter hy) with h1 | h1
          · rw [h1]; exact hdx
          · exact le_trans hdx (hl.1 y h1)
        rw [hfront]
        simp [List.filter_cons, hpd]
      · rw [if_neg hpd]
        simp [List.filter_cons, hpd]
    · rw [if_neg hdx]
      by_cases hpx : x.score < 60
      · simp only [List.filter_cons, decide_eq_true_eq, if_pos hpx]
        rw [ih hl.2]
        by_cases hpd : d.score < 60
        · rw [if_pos hpd, if_pos hpd, insertByScoreAsc_cons, if_neg hdx]
        · rw [if_neg hpd, if_neg hpd]
      · have hpd : ¬d.score < 60 := by omega
        simp only [List.filter_cons, decide_eq_true_eq, if_neg hpx]
        rw [ih hl.2, if_neg hpd]

lemma filter_eq_takeWhile_of_sorted :
    ∀ l : List InsightDetail, l.Pairwise (fun a b => a.score ≤ b.score) →
      l.filter (fun x => x.score < 60) = l.takeWhile (fun x => x.score < 60) := by
  intro l
  induction l with
  | nil => intro _; rfl
  | cons x xs ih =>
    intro hl
    rw [List.pairwise_cons] at hl
    by_cases hpx : x.score < 60
    · simp only [List.filter_cons, List.takeWhile_cons, decide_eq_true_eq, if_pos hpx,
        ih hl.2]
    · simp only [List.filter_cons, List.takeWhile_cons, decide_eq_true_eq, if_neg hpx]
      rw [List.filter_eq_nil_iff.mpr]
      intro y hy
      have := hl.1 y hy
      simp only [decide_eq_true_eq]
      omega

lemma sortByScoreAsc_filter (l : List InsightDetail) :
    sortByScoreAsc (l.filter (fun x => x.score < 60)) =
      (sortByScoreAsc l).filter (fun x => x.score < 60) := by
  induction l with
  | nil => rfl
  | cons x xs ih =>
    show sortByScoreAsc ((x :: xs).filter (fun y => y.score < 60)) =
      (insertByScoreAsc x (sortByScoreAsc xs)).filter (fun y => y.score < 60)
    rw [filter_insertByScoreAsc x (sortByScoreAsc xs) (pairwise_sortByScoreAsc xs)]
    by_cases hpx : x.score < 60
    · rw [if_pos hpx]
      simp only [List.filter_cons, decide_eq_true_eq, if_pos hpx]
      show insertByScoreAsc x (sortByScoreAsc (xs.filter (fun y => y.score < 60))) = _
      rw [ih]
    · rw [if_neg hpx]
      simp only [List.filter_cons, decide_eq_true_eq, if_neg hpx]
      exact ih

/-! ## C7 -/

/-- Best-practice details with only Plan Mode below 60 (a reachable
score vector: no Bash calls, no plan-mode session, no changes,
full sub-agent usage, CLAUDE.md present). -/
def bpLowPlanDemo : List InsightDetail :=
  [ { category := "ツール選択の適切さ", score := 100, finding := "f1" },
    { category := "Plan Mode活用", score := 0, finding := "f2" },
    { category := "テスト・ビルド検証率", score := 100, finding := "f3" },
    { category := "サブエージェント活用", score := 100, finding := "f4" },
    { category := "CLAUDE.md整備", score := 100, finding := "f5" } ]

/-- Best-practice details all at 100. -/
def bpAllGoodDemo : List InsightDetail :=
  [ { category := "ツール選択の適切さ", score := 100, finding := "f1" },
    { category := "Plan Mode活用", score := 100, finding := "f2" },
    { category := "テスト・ビルド検証率", score := 100, finding := "f3" },
    { category := "サブエージェント活用", score := 100, finding := "f4" },
    { category := "CLAUDE.md整備", score := 100, finding := "f5" } ]

/-- Instruction-quality details all at 100. -/
def iqAllGoodDemo : List InsightDetail :=
  [ { category := "指示の具体性", score := 100, finding := "g1" },
    { category := "コンテキスト提供度", score := 100, finding := "g2" },
    { category := "初期指示の的確さ", score := 100, finding := "g3" },
    { category := "軌道修正の少なさ", score := 100, finding := "g4" } ]

/-- Work-density details all at 100. -/
def wdAllGoodDemo : List InsightDetail :=
  [ { category := "トークン効率", score := 100, finding := "h1" },
    { category := "フェーズバランス", score := 100, finding := "h2" },
    { category := "手戻りの少なさ", score := 100, finding := "h3" } ]

/-- C7 counterexample: with exactly one sub-score below 60 (Plan Mode at
0) the code emits a single recommendation, not the 5 lowest-scoring
sub-scores the claim describes. -/
theorem C7_counterexample :
    recommendationsWithFallback bpLowPlanDemo iqAllGoodDemo wdAllGoodDemo ≠
      claimRecommendations bpLowPlanDemo iqAllGoodDemo wdAllGoodDemo
    ∧ (recommendationsWithFallback bpLowPlanDemo iqAllGoodDemo wdAllGoodDemo).length = 1
    ∧ (claimRecommendations bpLowPlanDemo iqAllGoodDemo wdAllGoodDemo).length = 5 :=
  ⟨by decide, by decide, by decide⟩

/-- C7 amended: the recommendation list consists of the sub-scores with
score strictly below 60 across all three axes, sorted ascending with
ties broken by encounter order, capped at 5, each mapped through the
category-to-advice lookup table with the finding text as fallback; when
every sub-score is at least 60 (the below-60 list is empty), a single
positive-affirmation message is emitted instead. -/
theorem C7_recommendations_lowest_below60 :
    (∀ bp iq wd : List InsightDetail,
        recommendationsWithFallback bp iq wd =
          (let low := (sortByScoreAsc (bp ++ iq ++ wd)).takeWhile (fun d => d.score < 60)
           if low.isEmpty then [positiveRecommendation]
           else (low.take 5).map adviceFor))
    ∧ (∀ bp iq wd : List InsightDetail, (∀ d ∈ bp ++ iq ++ wd, 60 ≤ d.score) →
        recommendationsWithFallback bp iq wd = [positiveRecommendation]) := by
  constructor
  · intro bp iq wd
    unfold recommendationsWithFallback generateRecommendations
    dsimp only
    rw [sortByScoreAsc_filter, filter_eq_takeWhile_of_sorted _ (pairwise_sortByScoreAsc _)]
    cases hlow : (sortByScoreAsc (bp ++ iq ++ wd)).takeWhile (fun d => d.score < 60) with
    | nil => simp
    | cons a as => simp

  · intro bp iq wd hall
    unfold recommendationsWithFallback generateRecommendations
    dsimp only
    have hfil : (bp ++ iq ++ wd).filter (fun d => d.score < 60) = [] := by
      rw [List.filter_eq_nil_iff]
      intro d hd
      have := hall d hd
      simp only [decide_eq_true_eq]
      omega
    rw [hfil]
    simp [sortByScoreAsc]

/-- Witness for C7: when every sub-score is at least 60 the single
positive message is returned. -/
theorem C7_witness :
    recommendationsWithFallback bpAllGoodDemo iqAllGoodDemo wdAllGoodDemo =
      [positiveRecommendation] :=
  C7_recommendations_lowest_below60.2 bpAllGoodDemo iqAllGoodDemo wdAllGoodDemo (by decide)

end CCViewer